import Mathlib

/-!
Verification of the ChebulUP framing and ARQ core against its specification.

Byte strings are modelled as `List ℕ` whose elements are below 256.
Python integers are modelled as `ℤ` at the API boundary (field arguments),
and as `ℕ` for values produced by the decoder, which are always
non-negative.  Fallible Python functions (those that may raise) are
modelled in the `Except String` monad, the string being the error message.
Machine arithmetic does not occur: all Python arithmetic here is exact
big-integer arithmetic, mirrored by `ℕ`/`ℤ`.
-/

/-! ## CRC-32 (`zlib.crc32`)

The reflected CRC-32 used by zlib: initial register `0xFFFFFFFF`, byte
xored into the register, eight shift steps with polynomial `0xEDB88320`,
final complement.  The register is kept as a `ℕ` below `2 ^ 32`.
-/

def CRC_POLY : ℕ := 0xEDB88320

/-- One shift-register step of the reflected CRC-32. -/
def crcBitStep (s : ℕ) : ℕ :=
  if s % 2 = 1 then (s / 2) ^^^ CRC_POLY else s / 2

/-- Process one input byte: xor it into the register, then run eight
shift-register steps. -/
def crcByteStep (s b : ℕ) : ℕ :=
  crcBitStep^[8] (s ^^^ b)

/-- `zlib.crc32(bs) & 0xFFFFFFFF` for a byte string `bs`. -/
def crc32 (bs : List ℕ) : ℕ :=
  (bs.foldl crcByteStep 0xFFFFFFFF) ^^^ 0xFFFFFFFF

/-! ## Big-endian field packing (`struct` with format `!`) -/

/-- The two bytes of a 16-bit big-endian field (`struct` format `H`). -/
def u16be (n : ℕ) : List ℕ := [n / 256 % 256, n % 256]

/-- The four bytes of a 32-bit big-endian field (`struct` format `I`). -/
def u32be (n : ℕ) : List ℕ :=
  [n / 2 ^ 24 % 256, n / 2 ^ 16 % 256, n / 2 ^ 8 % 256, n % 256]

/-- Read a 16-bit big-endian value from its two bytes. -/
def beWord (hi lo : ℕ) : ℕ := 256 * hi + lo

/-- Read a 32-bit big-endian value from its four bytes. -/
def beWord32 (b0 b1 b2 b3 : ℕ) : ℕ :=
  2 ^ 24 * b0 + 2 ^ 16 * b1 + 2 ^ 8 * b2 + b3

/-! ## `scripts/packet.py` -/

def TYPE_DATA : ℕ := 0

def TYPE_ACK : ℕ := 1

/-- `scripts/packet.py: pack_frame`.  The header format is
`!2sBBBBHHHH`: magic `"CP"`, version 1, frame type, two reserved zero
bytes, then `msg_id`, `seq`, `total`, payload length, all 16-bit
big-endian.  The explicit range checks mirror the source; the final
`frame_type` check models the range validation that `struct.pack`
itself performs on a `B` field (raising for values outside `[0, 255]`),
which in the source happens after the explicit checks. -/
def pack_frame (frame_type msg_id seq total : ℤ) (payload : List ℕ) :
    Except String (List ℕ) :=
  if ¬ (0 ≤ msg_id ∧ msg_id ≤ 0xFFFF) then .error "msg_id out of range"
  else if ¬ (0 ≤ seq ∧ seq ≤ 0xFFFF) then .error "seq out of range"
  else if ¬ (0 ≤ total ∧ total ≤ 0xFFFF) then .error "total out of range"
  else if 0xFFFF < payload.length then .error "payload too large"
  else if ¬ (0 ≤ frame_type ∧ frame_type ≤ 0xFF) then
    .error "frame_type out of range"
  else
    let header := [0x43, 0x50, 1, frame_type.toNat, 0, 0] ++
      u16be msg_id.toNat ++ u16be seq.toNat ++ u16be total.toNat ++
      u16be payload.length
    let body := header ++ payload
    .ok (body ++ u32be (crc32 body))

/-- `scripts/packet.py: unpack_frame`.  The checks appear in source
order: minimum length (`len(raw) < 18`), magic, version,
declared-length bound (`payload_end + 4 > len(raw)`), CRC.  Trailing
bytes beyond the CRC are not examined.  `struct.unpack` of the 14-byte
header is modelled by matching the first fourteen list cells; a list
of fewer than 18 bytes fails the initial length check exactly as in
the source. -/
def unpack_frame (raw : List ℕ) :
    Except String (ℕ × ℕ × ℕ × ℕ × List ℕ) :=
  match raw with
  | m0 :: m1 :: ver :: frame_type :: r1 :: r2 :: mh :: ml :: sh :: sl ::
      th :: tl :: lh :: ll :: rest =>
    if rest.length < 4 then .error "frame too short"
    else if [m0, m1] ≠ [0x43, 0x50] then .error "bad magic"
    else if ver ≠ 1 then .error "bad version"
    else
      let length := beWord lh ll
      if rest.length < length + 4 then .error "bad length"
      else
        let payload := rest.take length
        let crcSlice := (rest.drop length).take 4
        let crcExpected := beWord32 (crcSlice.getD 0 0) (crcSlice.getD 1 0)
          (crcSlice.getD 2 0) (crcSlice.getD 3 0)
        let crcActual := crc32
          ([m0, m1, ver, frame_type, r1, r2, mh, ml, sh, sl, th, tl, lh, ll]
            ++ payload)
        if crcActual ≠ crcExpected then .error "bad crc"
        else .ok (frame_type, beWord mh ml, beWord sh sl, beWord th tl,
          payload)
  | _ => .error "frame too short"

/-- `scripts/packet.py: pack_ack` — an ACK frame has an empty payload. -/
def pack_ack (msg_id seq total : ℤ) : Except String (List ℕ) :=
  pack_frame 1 msg_id seq total []

/-- A Python `for` loop that collects results and lets an exception
propagate: apply `f` to each element, stopping at the first error. -/
def exceptMap {α β : Type} (f : α → Except String β) :
    List α → Except String (List β)
  | [] => .ok []
  | a :: l =>
    match f a with
    | .error e => .error e
    | .ok b =>
      match exceptMap f l with
      | .error e => .error e
      | .ok bs => .ok (b :: bs)

/-- `scripts/packet.py: fragment_message`. -/
def fragment_message (payload : List ℕ) (msg_id max_payload : ℤ) :
    Except String (List (List ℕ)) :=
  if max_payload ≤ 0 then .error "max_payload must be > 0"
  else
    let k := max_payload.toNat
    let total0 := (payload.length + k - 1) / k
    let total := if total0 = 0 then 1 else total0
    exceptMap
      (fun seq => pack_frame 0 msg_id (seq : ℕ) (total : ℕ)
        ((payload.drop (seq * k)).take k))
      (List.range total)

/-- The lookup loop of `reassemble_frames`: fetch every listed key,
returning `none` as soon as one is missing. -/
def lookupAll (d : List (ℕ × List ℕ)) : List ℕ → Option (List (List ℕ))
  | [] => some []
  | s :: ss =>
    match d.lookup s with
    | none => none
    | some p =>
      match lookupAll d ss with
      | none => none
      | some ps => some (p :: ps)

/-- `scripts/packet.py: reassemble_frames`.  The Python dict
`{seq -> payload}` is modelled as an association list with distinct
keys (all dicts in this development are built by `dictInsert`, which
preserves key distinctness), so `len(dict)` is the list length and
`dict[k]` is `List.lookup`. -/
def reassemble_frames (d : List (ℕ × List ℕ)) (total : ℤ) :
    Except String (Option (List ℕ)) :=
  if total ≤ 0 then .error "total must be > 0"
  else if (d.length : ℤ) < total then .ok none
  else
    match lookupAll d (List.range total.toNat) with
    | none => .ok none
    | some parts => .ok (some parts.flatten)

/-- `dict[k] = v` on an association list: replace the binding if the key
is present, append it otherwise. -/
def dictInsert (d : List (ℕ × List ℕ)) (k : ℕ) (v : List ℕ) :
    List (ℕ × List ℕ) :=
  if d.any (fun p => p.1 = k) then
    d.map (fun p => if p.1 = k then (k, v) else p)
  else d ++ [(k, v)]

/-- The byte string produced by a successful `pack_frame` call, written
out explicitly: 14-byte header, payload, CRC-32 trailer. -/
def frameBytes (ft msgId seq total : ℕ) (payload : List ℕ) : List ℕ :=
  let header := [0x43, 0x50, 1, ft, 0, 0] ++ u16be msgId ++ u16be seq ++
    u16be total ++ u16be payload.length
  header ++ payload ++ u32be (crc32 (header ++ payload))

/-- The fragment count chosen by `fragment_message`: `ceil(L / k)`, but
at least 1 (an empty message still travels as one empty frame). -/
def fragTotal (L k : ℕ) : ℕ :=
  if (L + k - 1) / k = 0 then 1 else (L + k - 1) / k

/-- Store one decoded frame in the receiver-side dict: its payload goes
under its `seq`; a frame that fails to decode is skipped. -/
def fragDictStep (d : List (ℕ × List ℕ)) (f : List ℕ) :
    List (ℕ × List ℕ) :=
  match unpack_frame f with
  | .ok (_, _, seq, _, part) => dictInsert d seq part
  | .error _ => d

/-- Build the receiver-side dict `{seq -> payload}` from a list of raw
frames. -/
def fragmentsAsDict (frames : List (List ℕ)) : List (ℕ × List ℕ) :=
  frames.foldl fragDictStep []

/-! ## `scripts/arq_gbn.py`: Go-Back-N receiver and sender

The PHY transducer and base64 armoring between the channel and the
frame codec are modelled as the identity on frame bytes, as §6 of the
spec allows for a byte-transparent transducer; the ARQ logic below acts
on raw frame bytes.
-/

/-- The mutable state of `GBNReceiver` (`scripts/arq_gbn.py`). -/
structure GBNReceiverState where
  msg_id : ℕ
  expected_seq : ℕ
  total : Option ℕ
  parts : List (ℕ × List ℕ)
  assembled : Option (List ℕ)
deriving Repr

/-- `GBNReceiver.__init__`. -/
def GBNReceiver_new (msgId : ℕ) : GBNReceiverState :=
  { msg_id := msgId, expected_seq := 0, total := none, parts := [],
    assembled := none }

/-- `GBNReceiver.on_data`.  Returns the state at exit (Python mutates
the object in place, also on the paths that raise) together with the
result: `.error` for a propagated exception, `.ok none` for a frame
that is ignored, `.ok (some (mid, ack_seq))` for an ACK instruction.
`ack_seq` is an `ℤ` because the out-of-order branch computes
`max(-1, expected_seq - 1)`. -/
def GBNReceiver_on_data (st : GBNReceiverState) (raw : List ℕ) :
    GBNReceiverState × Except String (Option (ℕ × ℤ)) :=
  match unpack_frame raw with
  | .error e => (st, .error e)
  | .ok (ft, mid, seq, total, payload) =>
    if ft ≠ TYPE_DATA ∨ mid ≠ st.msg_id then (st, .ok none)
    else
      let st1 := if st.total = none then { st with total := some total }
        else st
      if seq ≠ st1.expected_seq then
        (st1, .ok (some (mid, max (-1) ((st1.expected_seq : ℤ) - 1))))
      else
        let st2 := { st1 with
          parts := dictInsert st1.parts seq payload,
          expected_seq := st1.expected_seq + 1 }
        match st2.total with
        | none => (st2, .ok (some (mid, (seq : ℤ))))
        | some t =>
          match reassemble_frames st2.parts (t : ℤ) with
          | .error e => (st2, .error e)
          | .ok none => (st2, .ok (some (mid, (seq : ℤ))))
          | .ok (some asm) =>
            ({ st2 with assembled := some asm }, .ok (some (mid, (seq : ℤ))))

/-- One frame's worth of `receiver_pump` (`scripts/arq_gbn.py` lines
262-299): feed the frame to `on_data`; an exception anywhere in the
`try` block (decode, `on_data`, or `pack_ack`) increments
`crc_fail_total` by one and sends nothing; otherwise the packed
cumulative ACK frame is handed to the ack channel.  Result:
`(state, ack frame submitted to the ack channel, crc_fail increment)`. -/
def gbnPumpFrame (st : GBNReceiverState) (framesTotal : ℕ)
    (raw : List ℕ) : GBNReceiverState × Option (List ℕ) × ℕ :=
  match GBNReceiver_on_data st raw with
  | (st', .error _) => (st', none, 1)
  | (st', .ok none) => (st', none, 0)
  | (st', .ok (some (amid, ackSeq))) =>
    let total := st'.total.getD framesTotal
    match pack_ack amid ackSeq total with
    | .error _ => (st', none, 1)
    | .ok ackFrame => (st', some ackFrame, 0)

/-- The receiver state after a sequence of DATA frames has been fed to
`on_data`. -/
def gbnRunFrames (st : GBNReceiverState) (raws : List (List ℕ)) :
    GBNReceiverState :=
  raws.foldl (fun s raw => (GBNReceiver_on_data s raw).1) st

/-- The Go-Back-N sender variables of `run_once`
(`scripts/arq_gbn.py`): `base`, `next_to_send`, `last_ack` (initially
-1), and the timeout counter. -/
structure GBNSenderState where
  base : ℤ
  next_to_send : ℤ
  last_ack : ℤ
  timeouts : ℕ
deriving Repr

/-- The ACK-handling tail of one main-loop iteration of the GBN
`run_once` (`scripts/arq_gbn.py` lines 351-374).  `ack` is the result
of `sender_pump_ack`: `none` on timeout, `some seq` for a received
cumulative ACK.  The `Bool` is true when the run aborts with
"too many timeouts". -/
def gbnSenderAckStep (st : GBNSenderState) (maxTimeouts : ℤ)
    (ack : Option ℤ) : GBNSenderState × Bool :=
  match ack with
  | none =>
    let t := st.timeouts + 1
    if (t : ℤ) ≥ maxTimeouts then ({ st with timeouts := t }, true)
    else ({ st with timeouts := t, next_to_send := st.base }, false)
  | some a =>
    if a > st.last_ack then
      ({ st with last_ack := a, base := max st.base (a + 1) }, false)
    else (st, false)

/-- The sender state after a sequence of main-loop iterations whose
ACK outcomes are given by `acks`. -/
def gbnSenderTrace (st : GBNSenderState) (maxTimeouts : ℤ)
    (acks : List (Option ℤ)) : GBNSenderState :=
  acks.foldl (fun s a => (gbnSenderAckStep s maxTimeouts a).1) st

/-- A single-bit flip: replace byte `i` by itself xored with `2 ^ k`
(`k` is the bit index within the byte). -/
def flipBit (bs : List ℕ) (i k : ℕ) : List ℕ :=
  bs.set i ((bs.getD i 0) ^^^ 2 ^ k)

/-- The payload of the C4 counterexample frame: its bytes 1-4 are
chosen so that after a single bit flip in the frame's length field the
truncated body still CRC-checks. -/
def lenFlipPayload : List ℕ :=
  0xAA :: u32be (crc32
    [0x43, 0x50, 1, 0, 0, 0, 0, 0, 0, 0, 0, 0, 0, 1, 0xAA])

/-! ## `scripts/measure_arq_fast_sim.py`: event-driven Stop-and-Wait simulator

Python floats are modelled as exact rationals (`ℚ`): the only float
operations the simulator performs are comparisons of PRNG samples
against probability parameters and two divisions for the goodput, none
of which round in a way any claim depends on.  The seeded PRNG
`random.Random(seed)` is modelled by two abstract draw streams, both
functions of the seed in the source: `rngQ` for `rng.random()` (values
in `[0, 1)`) and `rngN` for the `rng.randrange(n)` draws of
`_corrupt_bytes` (reduced mod `n`).  Stream indices are threaded
through the state.
-/

/-- `ChannelParams` (`scripts/measure_arq_fast_sim.py`). -/
structure ChannelParams where
  drop_prob : ℚ
  corrupt_prob : ℚ
  delay_ms : ℤ
deriving Repr

/-- `RunResult` of the fast simulator. -/
structure SimRunResult where
  ok : Bool
  time_ms : ℤ
  goodput_Bps : ℚ
  retries_total : ℕ
  crc_fail_total : ℕ
deriving Repr, DecidableEq

/-- The whole mutable state of one `run_once_sim` call: virtual clock,
the two in-flight event queues, the counters, the receiver's assembly
state, and the PRNG stream cursors. -/
structure SimState where
  nowMs : ℤ
  qData : List (ℤ × List ℕ)
  qAck : List (ℤ × List ℕ)
  retries : ℕ
  crcFail : ℕ
  gotParts : List (ℕ × List ℕ)
  expectedTotal : Option ℕ
  rqIdx : ℕ
  rnIdx : ℕ
deriving Repr

/-- `EventQueue.pop_ready`: entries due at `now`, in order, and the
remaining queue. -/
def eqPopReady (q : List (ℤ × List ℕ)) (now : ℤ) :
    List (List ℕ) × List (ℤ × List ℕ) :=
  ((q.filter (fun e => e.1 ≤ now)).map Prod.snd,
    q.filter (fun e => ¬ (e.1 ≤ now)))

/-- `EventQueue.next_time`: the earliest delivery time, if any. -/
def eqNextTime (q : List (ℤ × List ℕ)) : Option ℤ :=
  match q.map Prod.fst with
  | [] => none
  | t :: ts => some (ts.foldl min t)

/-- `_corrupt_bytes`: flip one random bit of a nonempty byte string,
drawing the byte index and the bit index from the `rngN` stream. -/
def corruptBytes (rngN : ℕ → ℕ) (rnIdx : ℕ) (b : List ℕ) :
    List ℕ × ℕ :=
  if b.length = 0 then (b, rnIdx)
  else
    let i := rngN rnIdx % b.length
    let bit := 2 ^ (rngN (rnIdx + 1) % 8)
    (b.set i ((b.getD i 0) ^^^ bit), rnIdx + 2)

/-- `send_over_channel`: sample the drop, optionally corrupt, then
enqueue at `now + delay`.  Returns the new queue and PRNG cursors. -/
def sendOverChannel (rngQ : ℕ → ℚ) (rngN : ℕ → ℕ) (ch : ChannelParams)
    (now : ℤ) (rqIdx rnIdx : ℕ) (q : List (ℤ × List ℕ))
    (raw : List ℕ) : List (ℤ × List ℕ) × ℕ × ℕ :=
  if rngQ rqIdx < ch.drop_prob then (q, rqIdx + 1, rnIdx)
  else if 0 < ch.corrupt_prob then
    if rngQ (rqIdx + 1) < ch.corrupt_prob then
      let (raw2, rnIdx2) := corruptBytes rngN rnIdx raw
      (q ++ [(now + ch.delay_ms, raw2)], rqIdx + 2, rnIdx2)
    else (q ++ [(now + ch.delay_ms, raw)], rqIdx + 2, rnIdx)
  else (q ++ [(now + ch.delay_ms, raw)], rqIdx + 1, rnIdx)

/-- One DATA frame's worth of `receiver_pump`: decode, dedup-free
store, ACK.  Any exception in the `try` block counts one CRC failure. -/
def simPumpFrame (rngQ : ℕ → ℚ) (rngN : ℕ → ℕ) (ackCh : ChannelParams)
    (msgId : ℕ) (st : SimState) (raw : List ℕ) : SimState :=
  match unpack_frame raw with
  | .error _ => { st with crcFail := st.crcFail + 1 }
  | .ok (ft, mid, seq, total, part) =>
    if ft ≠ TYPE_DATA ∨ mid ≠ msgId then st
    else
      let st1 := { st with
        expectedTotal := if st.expectedTotal = none then some total
          else st.expectedTotal,
        gotParts := dictInsert st.gotParts seq part }
      match pack_ack mid seq total with
      | .error _ => { st1 with crcFail := st1.crcFail + 1 }
      | .ok ackFrame =>
        let (q2, rq2, rn2) := sendOverChannel rngQ rngN ackCh st1.nowMs
          st1.rqIdx st1.rnIdx st1.qAck ackFrame
        { st1 with qAck := q2, rqIdx := rq2, rnIdx := rn2 }

/-- `receiver_pump`: pop every due DATA frame and process each. -/
def receiverPump (rngQ : ℕ → ℚ) (rngN : ℕ → ℕ) (ackCh : ChannelParams)
    (msgId : ℕ) (st : SimState) : SimState :=
  let pr := eqPopReady st.qData st.nowMs
  pr.1.foldl (simPumpFrame rngQ rngN ackCh msgId)
    { st with qData := pr.2 }

/-- The ACK-scanning `for` loop of `sender_wait_ack`: a CRC failure
counts and continues; the first matching ACK returns `true`, dropping
the rest of the popped batch. -/
def scanAcks (msgId seq total : ℕ) (st : SimState) :
    List (List ℕ) → SimState × Bool
  | [] => (st, false)
  | raw :: rest =>
    match unpack_frame raw with
    | .error _ =>
      scanAcks msgId seq total { st with crcFail := st.crcFail + 1 } rest
    | .ok (aft, amid, aseq, atotal, _) =>
      if aft = TYPE_ACK ∧ amid = msgId ∧ aseq = seq ∧ atotal = total then
        (st, true)
      else scanAcks msgId seq total st rest

/-- `sender_wait_ack`, with explicit recursion fuel for the
`while now_ms <= deadline` loop (each iteration either returns or
strictly advances the clock, so any fuel beyond the waited span is
enough).  The last component is true when fuel ran out. -/
def senderWaitAck (rngQ : ℕ → ℚ) (rngN : ℕ → ℕ)
    (ackCh : ChannelParams) (msgId seq total : ℕ) (deadline : ℤ) :
    ℕ → SimState → SimState × Bool × Bool
  | 0, st => (st, false, true)
  | fuel + 1, st =>
    if ¬ (st.nowMs ≤ deadline) then (st, false, false)
    else
      let st1 := receiverPump rngQ rngN ackCh msgId st
      let pr := eqPopReady st1.qAck st1.nowMs
      let st2 := { st1 with qAck := pr.2 }
      match scanAcks msgId seq total st2 pr.1 with
      | (st3, true) => (st3, true, false)
      | (st3, false) =>
        let nextT : Option ℤ :=
          match eqNextTime st3.qData, eqNextTime st3.qAck with
          | some a, some b => some (min a b)
          | some a, none => some a
          | none, some b => some b
          | none, none => none
        match nextT with
        | none => senderWaitAck rngQ rngN ackCh msgId seq total deadline
            fuel { st3 with nowMs := deadline + 1 }
        | some nt =>
          if nt ≤ st3.nowMs then
            senderWaitAck rngQ rngN ackCh msgId seq total deadline fuel
              { st3 with nowMs := st3.nowMs + 1 }
          else
            senderWaitAck rngQ rngN ackCh msgId seq total deadline fuel
              { st3 with nowMs := min nt (deadline + 1) }

/-- The outcome of a (sub)run: an uncaught Python exception, exhausted
modelling fuel, or a finished result. -/
inductive SimOut (α : Type) where
  | exn : String → SimOut α
  | fuelOut : SimOut α
  | done : α → SimOut α
deriving Repr

/-- The fail `RunResult` built at the two early-return sites (frame of
an unexpected kind; retries exhausted): note the raw `now_ms` with no
lower bound, unlike the final-path `max(1, now_ms)`. -/
def mkFailResult (st : SimState) : SimRunResult :=
  ⟨false, st.nowMs, 0, st.retries, st.crcFail⟩

/-- The `while True` retransmission loop for one frame.  Structural
fuel bounds the iterations; `max_retries + 1` is always enough because
`tries` grows each iteration.  Returns the state plus `true` when the
frame was acknowledged, `false` when the run failed with
`tries >= max_retries`. -/
def senderRetryLoop (rngQ : ℕ → ℚ) (rngN : ℕ → ℕ)
    (dataCh ackCh : ChannelParams) (msgId : ℕ) (timeout : ℤ)
    (maxRetries : ℤ) (waitFuel : ℕ) (rawFrame : List ℕ)
    (seq total : ℕ) :
    ℕ → ℤ → SimState → SimOut (SimState × Bool)
  | 0, _, _ => .fuelOut
  | fuel + 1, tries, st =>
    let (q2, rq2, rn2) := sendOverChannel rngQ rngN dataCh st.nowMs
      st.rqIdx st.rnIdx st.qData rawFrame
    let st1 := { st with qData := q2, rqIdx := rq2, rnIdx := rn2 }
    match senderWaitAck rngQ rngN ackCh msgId seq total
        (st1.nowMs + timeout) waitFuel st1 with
    | (_, _, true) => .fuelOut
    | (st2, true, _) => .done (st2, true)
    | (st2, false, _) =>
      let st3 := { st2 with retries := st2.retries + 1 }
      if maxRetries ≤ tries + 1 then .done (st3, false)
      else senderRetryLoop rngQ rngN dataCh ackCh msgId timeout
        maxRetries waitFuel rawFrame seq total fuel (tries + 1) st3

/-- The main `for raw_frame in frames` loop of `run_once_sim`.
Returns the final state, or the early fail result, or an exception. -/
def simFramesLoop (rngQ : ℕ → ℚ) (rngN : ℕ → ℕ)
    (dataCh ackCh : ChannelParams) (msgId : ℕ) (timeout : ℤ)
    (maxRetries : ℤ) (waitFuel : ℕ) :
    List (List ℕ) → SimState → SimOut (SimState ⊕ SimRunResult)
  | [], st => .done (.inl st)
  | raw :: rest, st =>
    match unpack_frame raw with
    | .error e => .exn e
    | .ok (ft, mid, seq, total, _) =>
      if ft ≠ TYPE_DATA ∨ mid ≠ msgId then .done (.inr (mkFailResult st))
      else
        match senderRetryLoop rngQ rngN dataCh ackCh msgId timeout
            maxRetries waitFuel raw seq total
            (maxRetries.toNat + 1) 0 st with
        | .exn e => .exn e
        | .fuelOut => .fuelOut
        | .done (st2, false) => .done (.inr (mkFailResult st2))
        | .done (st2, true) =>
          simFramesLoop rngQ rngN dataCh ackCh msgId timeout maxRetries
            waitFuel rest st2

/-- `scripts/measure_arq_fast_sim.py: run_once_sim`. -/
def run_once_sim (rngQ : ℕ → ℚ) (rngN : ℕ → ℕ) (payload : List ℕ)
    (max_payload timeout_ms maxRetries : ℤ)
    (data_ch ack_ch : ChannelParams) (msgId : ℕ) (waitFuel : ℕ) :
    SimOut SimRunResult :=
  match fragment_message payload msgId max_payload with
  | .error e => .exn e
  | .ok frames =>
    let st0 : SimState := ⟨0, [], [], 0, 0, [], none, 0, 0⟩
    match simFramesLoop rngQ rngN data_ch ack_ch msgId timeout_ms
        maxRetries waitFuel frames st0 with
    | .exn e => .exn e
    | .fuelOut => .fuelOut
    | .done (.inr r) => .done r
    | .done (.inl st) =>
      let st2 := receiverPump rngQ rngN ack_ch msgId st
      let assembled : Except String (Option (List ℕ)) :=
        match st2.expectedTotal with
        | none => .ok none
        | some t => reassemble_frames st2.gotParts (t : ℤ)
      match assembled with
      | .error e => .exn e
      | .ok asmOpt =>
        let okRun := asmOpt = some payload
        let timeMs := max 1 st2.nowMs
        let goodput : ℚ :=
          if okRun then (payload.length : ℚ) / ((timeMs : ℚ) / 1000)
          else 0
        .done ⟨okRun, timeMs, goodput, st2.retries, st2.crcFail⟩

/-! ## `scripts/arq_stop_and_wait.py`: wall-clock Stop-and-Wait runner

`run_once` differs from the fast simulator in one essential way: it
reads the wall clock (`time.time()`).  The clock is modelled as an
abstract stream `clock : ℕ → ℚ` of successive `time.time()` return
values, with the call index threaded through the state.  The ggwave
PHY and the base64 armoring are external to this repository; per the
spec's transport abstraction they are modelled as abstract transducers
(`phyE`/`phyD`, `b64E`/`b64D`) plus a duration estimate `durOf`, all
bundled in `WallParams`.  `random.random()` and `random.randrange`
draws use the same two abstract streams as the fast simulator. -/

/-- The ASCII codes of `_B64_ALPH`
(`"ABCDEFGHIJKLMNOPQRSTUVWXYZabcdefghijklmnopqrstuvwxyz0123456789+/"`). -/
def B64_ALPH : List ℕ :=
  (List.range 26).map (· + 65) ++ (List.range 26).map (· + 97) ++
    (List.range 10).map (· + 48) ++ [43, 47]

/-- `corrupt_b64_ascii`: replace one character of an ASCII base64
string, drawing positions and replacement characters from the
`randrange` stream.  Returns the new bytes and the advanced cursor. -/
def corrupt_b64_ascii (rngN : ℕ → ℕ) (idx : ℕ) (b : List ℕ) :
    List ℕ × ℕ :=
  if b.length = 0 then (b, idx)
  else
    let p := if 2 < b.length then (rngN idx % (b.length - 1), idx + 1)
      else (0, idx)
    let i := if b.getD p.1 0 = 61 ∧ 1 < b.length then p.1 - 1 else p.1
    let old := b.getD i 0
    let n1 := B64_ALPH.getD (rngN p.2 % 64) 0
    let r := if n1 = old then
        (B64_ALPH.getD ((rngN (p.2 + 1) % 64 + 1) % 64) 0, p.2 + 2)
      else (n1, p.2 + 1)
    (b.set i r.1, r.2)

/-- `UnreliableChannel.send`: drop with probability `drop`, otherwise
append to the FIFO queue.  Returns the queue, the advanced `random()`
cursor, and whether the item was enqueued. -/
def chSend (rngQ : ℕ → ℚ) (drop : ℚ) (rq : ℕ) (q : List (List ℕ))
    (item : List ℕ) : List (List ℕ) × ℕ × Bool :=
  if rngQ rq < drop then (q, rq + 1, false)
  else (q ++ [item], rq + 1, true)

/-- `ReceiverState` of `scripts/arq_stop_and_wait.py`. -/
structure ReceiverState where
  msg_id : ℕ
  got_parts : List (ℕ × List ℕ)
  expected_total : Option ℕ
  assembled : Option (List ℕ)
deriving Repr

/-- `ReceiverState.on_data_frame`.  The mutations made before
`reassemble_frames` persist even when it raises, so the updated state
is returned alongside the `Except` outcome. -/
def ReceiverState_on_data_frame (rx : ReceiverState) (raw : List ℕ) :
    ReceiverState × Except String (Option (ℕ × ℕ × ℕ)) :=
  match unpack_frame raw with
  | .error e => (rx, .error e)
  | .ok (ft, mid, seq, total, payload) =>
    if ft ≠ TYPE_DATA ∨ mid ≠ rx.msg_id then (rx, .ok none)
    else
      let et := rx.expected_total.getD total
      let parts := dictInsert rx.got_parts seq payload
      let rx1 := { rx with expected_total := some et, got_parts := parts }
      match reassemble_frames parts (et : ℤ) with
      | .error e => (rx1, .error e)
      | .ok asm =>
        ({ rx1 with assembled :=
            match asm with | some a => some a | none => rx1.assembled },
          .ok (some (mid, seq, total)))

/-- The abstract externals of `run_once`: the wall clock, the PRNG
streams, the ggwave PHY pair with its duration estimate, and the
base64 armoring pair. -/
structure WallParams where
  clock : ℕ → ℚ
  rngQ : ℕ → ℚ
  rngN : ℕ → ℕ
  phyE : List ℕ → List ℕ
  durOf : List ℕ → ℚ
  phyD : List ℕ → Option (List ℕ)
  b64E : List ℕ → List ℕ
  b64D : List ℕ → Except String (List ℕ)

/-- The mutable state of one `run_once` call. -/
structure WallState where
  clkIdx : ℕ
  rqIdx : ℕ
  rnIdx : ℕ
  dataQ : List (List ℕ)
  ackQ : List (List ℕ)
  retries_total : ℕ
  crc_fail_total : ℕ
  data_sent : ℕ
  data_dropped : ℕ
  ack_sent : ℕ
  ack_dropped : ℕ
  phySeconds : ℚ
  rx : ReceiverState
deriving Repr

/-- `RunResult` of `scripts/arq_stop_and_wait.py`. -/
structure WallRunResult where
  ok : Bool
  seconds : ℚ
  goodput_Bps : ℚ
  frames_total : ℕ
  retries_total : ℕ
  crc_fail_total : ℕ
  data_sent : ℕ
  data_dropped : ℕ
  ack_sent : ℕ
  ack_dropped : ℕ
  phy_seconds : ℚ
  virtual_seconds : ℚ
  goodput_virtual_Bps : ℚ
deriving Repr, DecidableEq

/-- The body of `receiver_pump`, recursing over the drained DATA
queue (nothing ever re-enters `dataQ` during the pump). -/
def wallPumpLoop (P : WallParams) (drop_ack corrupt_data_prob : ℚ)
    (msgId : ℕ) : List (List ℕ) → WallState → WallState
  | [], st => st
  | samples :: rest, st =>
    match P.phyD samples with
    | none => wallPumpLoop P drop_ack corrupt_data_prob msgId rest st
    | some decoded =>
      let c : List ℕ × ℕ × ℕ :=
        if 0 < corrupt_data_prob then
          if P.rngQ st.rqIdx < corrupt_data_prob then
            let cb := corrupt_b64_ascii P.rngN st.rnIdx decoded
            (cb.1, st.rqIdx + 1, cb.2)
          else (decoded, st.rqIdx + 1, st.rnIdx)
        else (decoded, st.rqIdx, st.rnIdx)
      let st0 := { st with rqIdx := c.2.1, rnIdx := c.2.2 }
      match P.b64D c.1 with
      | .error _ => wallPumpLoop P drop_ack corrupt_data_prob msgId rest
          { st0 with crc_fail_total := st0.crc_fail_total + 1 }
      | .ok raw =>
        match ReceiverState_on_data_frame st0.rx raw with
        | (rx1, .error _) => wallPumpLoop P drop_ack corrupt_data_prob
            msgId rest
            { st0 with rx := rx1, crc_fail_total := st0.crc_fail_total + 1 }
        | (rx1, .ok none) => wallPumpLoop P drop_ack corrupt_data_prob
            msgId rest { st0 with rx := rx1 }
        | (rx1, .ok (some (mid, seq, total))) =>
          match pack_ack (mid : ℤ) (seq : ℤ) (total : ℤ) with
          | .error _ => wallPumpLoop P drop_ack corrupt_data_prob msgId
              rest
              { st0 with rx := rx1, crc_fail_total := st0.crc_fail_total + 1 }
          | .ok ackF =>
            let ack_text := P.b64E ackF
            let st1 := { st0 with rx := rx1, phySeconds := st0.phySeconds + P.durOf ack_text, ack_sent := st0.ack_sent + 1 }
            let s := chSend P.rngQ drop_ack st1.rqIdx st1.ackQ
              (P.phyE ack_text)
            let st2 := { st1 with ackQ := s.1, rqIdx := s.2.1 }
            wallPumpLoop P drop_ack corrupt_data_prob msgId rest
              (if s.2.2 then st2
                else { st2 with ack_dropped := st2.ack_dropped + 1 })

/-- `receiver_pump`: drain the DATA queue and process every item. -/
def wallPump (P : WallParams) (drop_ack corrupt_data_prob : ℚ)
    (msgId : ℕ) (st : WallState) : WallState :=
  wallPumpLoop P drop_ack corrupt_data_prob msgId st.dataQ
    { st with dataQ := [] }

/-- `sender_wait_ack`: poll the clock against the deadline, pump the
receiver, then examine at most one ACK per iteration.  The last
component is true when the modelling fuel ran out. -/
def wallWaitAck (P : WallParams)
    (drop_ack corrupt_data_prob corrupt_ack_prob : ℚ)
    (msgId seq total : ℕ) (deadline : ℚ) :
    ℕ → WallState → WallState × Bool × Bool
  | 0, st => (st, false, true)
  | f + 1, st =>
    let t := P.clock st.clkIdx
    let st0 := { st with clkIdx := st.clkIdx + 1 }
    if ¬ (t < deadline) then (st0, false, false)
    else
      let st1 := wallPump P drop_ack corrupt_data_prob msgId st0
      match st1.ackQ with
      | [] => wallWaitAck P drop_ack corrupt_data_prob corrupt_ack_prob
          msgId seq total deadline f st1
      | ackS :: restQ =>
        let st2 := { st1 with ackQ := restQ }
        match P.phyD ackS with
        | none => wallWaitAck P drop_ack corrupt_data_prob
            corrupt_ack_prob msgId seq total deadline f st2
        | some dec =>
          let c : List ℕ × ℕ × ℕ :=
            if 0 < corrupt_ack_prob then
              if P.rngQ st2.rqIdx < corrupt_ack_prob then
                let cb := corrupt_b64_ascii P.rngN st2.rnIdx dec
                (cb.1, st2.rqIdx + 1, cb.2)
              else (dec, st2.rqIdx + 1, st2.rnIdx)
            else (dec, st2.rqIdx, st2.rnIdx)
          let st3 := { st2 with rqIdx := c.2.1, rnIdx := c.2.2 }
          match P.b64D c.1 with
          | .error _ => wallWaitAck P drop_ack corrupt_data_prob
              corrupt_ack_prob msgId seq total deadline f
              { st3 with crc_fail_total := st3.crc_fail_total + 1 }
          | .ok ackFrame =>
            match unpack_frame ackFrame with
            | .error _ => wallWaitAck P drop_ack corrupt_data_prob
                corrupt_ack_prob msgId seq total deadline f
                { st3 with crc_fail_total := st3.crc_fail_total + 1 }
            | .ok (aft, amid, aseq, atotal, _) =>
              if aft = TYPE_ACK ∧ amid = msgId ∧ aseq = seq ∧
                  atotal = total then (st3, true, false)
              else wallWaitAck P drop_ack corrupt_data_prob
                  corrupt_ack_prob msgId seq total deadline f st3

/-- The `while True` retransmission loop of `run_once` for one frame:
encode and send, pump, wait; on timeout count the retry and re-send,
raising `RuntimeError` when `tries >= max_retries`. -/
def wallRetryLoop (P : WallParams)
    (drop_data drop_ack corrupt_data_prob corrupt_ack_prob : ℚ)
    (msgId : ℕ) (timeout_s : ℚ) (max_retries : ℤ)
    (data_text : List ℕ) (seq total : ℕ) (waitFuel : ℕ) :
    ℕ → ℤ → WallState → SimOut WallState
  | 0, _, _ => .fuelOut
  | f + 1, tries, st =>
    let st0 := { st with
      phySeconds := st.phySeconds + P.durOf data_text,
      data_sent := st.data_sent + 1 }
    let s := chSend P.rngQ drop_data st0.rqIdx st0.dataQ
      (P.phyE data_text)
    let st1 := { st0 with dataQ := s.1, rqIdx := s.2.1 }
    let st1b := if s.2.2 then st1
      else { st1 with data_dropped := st1.data_dropped + 1 }
    let st2 := wallPump P drop_ack corrupt_data_prob msgId st1b
    let deadline := P.clock st2.clkIdx + timeout_s
    let st3 := { st2 with clkIdx := st2.clkIdx + 1 }
    match wallWaitAck P drop_ack corrupt_data_prob corrupt_ack_prob
        msgId seq total deadline waitFuel st3 with
    | (_, _, true) => .fuelOut
    | (st4, true, _) => .done st4
    | (st4, false, _) =>
      let st5 := { st4 with retries_total := st4.retries_total + 1 }
      if max_retries ≤ tries + 1 then .exn "Too many retries"
      else wallRetryLoop P drop_data drop_ack corrupt_data_prob
        corrupt_ack_prob msgId timeout_s max_retries data_text seq
        total waitFuel f (tries + 1) st5

/-- The `for raw_frame in frames` loop of `run_once`. -/
def wallFramesLoop (P : WallParams)
    (drop_data drop_ack corrupt_data_prob corrupt_ack_prob : ℚ)
    (msgId : ℕ) (timeout_s : ℚ) (max_retries : ℤ) (waitFuel : ℕ) :
    List (List ℕ) → WallState → SimOut WallState
  | [], st => .done st
  | raw :: rest, st =>
    match unpack_frame raw with
    | .error e => .exn e
    | .ok (ft, mid, seq, total, _) =>
      if ft ≠ TYPE_DATA ∨ mid ≠ msgId then
        .exn "Unexpected frame in fragmentation result"
      else
        match wallRetryLoop P drop_data drop_ack corrupt_data_prob
            corrupt_ack_prob msgId timeout_s max_retries (P.b64E raw)
            seq total waitFuel (max_retries.toNat + 1) 0 st with
        | .exn e => .exn e
        | .fuelOut => .fuelOut
        | .done st2 => wallFramesLoop P drop_data drop_ack
            corrupt_data_prob corrupt_ack_prob msgId timeout_s
            max_retries waitFuel rest st2

/-- `scripts/arq_stop_and_wait.py: run_once`.  The `seconds` field is
`max(1e-9, time.time() - t0)`: a wall-clock quantity. -/
def run_once (P : WallParams) (payload : List ℕ)
    (drop_data drop_ack : ℚ) (max_payload : ℤ) (timeout_s : ℚ)
    (max_retries : ℤ) (msgId : ℕ)
    (corrupt_data_prob corrupt_ack_prob : ℚ) (waitFuel : ℕ) :
    SimOut WallRunResult :=
  let t0 := P.clock 0
  let st0 : WallState :=
    ⟨1, 0, 0, [], [], 0, 0, 0, 0, 0, 0, 0, ⟨msgId, [], none, none⟩⟩
  match fragment_message payload msgId max_payload with
  | .error e => .exn e
  | .ok frames =>
    match wallFramesLoop P drop_data drop_ack corrupt_data_prob
        corrupt_ack_prob msgId timeout_s max_retries waitFuel frames
        st0 with
    | .exn e => .exn e
    | .fuelOut => .fuelOut
    | .done st =>
      let st2 := wallPump P drop_ack corrupt_data_prob msgId st
      let seconds := max ((1 : ℚ)/1000000000) (P.clock st2.clkIdx - t0)
      let okRun := st2.rx.assembled = some payload
      let goodput : ℚ :=
        if okRun then (payload.length : ℚ) / seconds else 0
      let virtual := max ((1 : ℚ)/1000000000)
        (st2.phySeconds + (st2.retries_total : ℚ) * timeout_s)
      let goodputV : ℚ :=
        if okRun then (payload.length : ℚ) / virtual else 0
      .done ⟨okRun, seconds, goodput, frames.length, st2.retries_total,
        st2.crc_fail_total, st2.data_sent, st2.data_dropped,
        st2.ack_sent, st2.ack_dropped, st2.phySeconds, virtual,
        goodputV⟩

/-! ## Arithmetic helper lemmas -/

lemma beWord_split {n : ℕ} (h : n ≤ 0xFFFF) :
    beWord (n / 256 % 256) (n % 256) = n := by
  unfold beWord; omega

lemma beWord32_split {n : ℕ} (h : n < 2 ^ 32) :
    beWord32 (n / 2 ^ 24 % 256) (n / 2 ^ 16 % 256) (n / 2 ^ 8 % 256)
      (n % 256) = n := by
  unfold beWord32; omega

lemma crcBitStep_lt {s : ℕ} (h : s < 2 ^ 32) : crcBitStep s < 2 ^ 32 := by
  unfold crcBitStep CRC_POLY
  split
  · exact Nat.xor_lt_two_pow (by omega) (by norm_num)
  · omega

lemma crcBitStep_iter_lt {s : ℕ} (n : ℕ) (h : s < 2 ^ 32) :
    crcBitStep^[n] s < 2 ^ 32 := by
  induction n generalizing s with
  | zero => simpa using h
  | succ n ih =>
    rw [Function.iterate_succ_apply]
    exact ih (crcBitStep_lt h)

lemma crcByteStep_lt {s b : ℕ} (hs : s < 2 ^ 32) (hb : b < 256) :
    crcByteStep s b < 2 ^ 32 := by
  unfold crcByteStep
  exact crcBitStep_iter_lt 8 (Nat.xor_lt_two_pow hs (by omega))

lemma crcFold_lt {s : ℕ} {bs : List ℕ} (hs : s < 2 ^ 32)
    (hb : ∀ b ∈ bs, b < 256) :
    bs.foldl crcByteStep s < 2 ^ 32 := by
  induction bs generalizing s with
  | nil => simpa using hs
  | cons b bs ih =>
    simp only [List.foldl_cons]
    exact ih (crcByteStep_lt hs (hb b (by simp)))
      (fun x hx => hb x (by simp [hx]))

lemma crc32_lt {bs : List ℕ} (hb : ∀ b ∈ bs, b < 256) :
    crc32 bs < 2 ^ 32 := by
  unfold crc32
  exact Nat.xor_lt_two_pow (crcFold_lt (by norm_num) hb) (by norm_num)

lemma u16be_length (n : ℕ) : (u16be n).length = 2 := by simp [u16be]

lemma u32be_length (n : ℕ) : (u32be n).length = 4 := by simp [u32be]

lemma frameBytes_length (ft msgId seq total : ℕ) (payload : List ℕ) :
    (frameBytes ft msgId seq total payload).length =
      14 + payload.length + 4 := by
  simp [frameBytes, u16be, u32be]
  omega

/-! ## Round-trip framing -/

lemma pack_frame_ok (ft msgId seq total : ℕ) (payload : List ℕ)
    (hft : ft ≤ 0xFF) (hm : msgId ≤ 0xFFFF) (hs : seq ≤ 0xFFFF)
    (ht : total ≤ 0xFFFF) (hp : payload.length ≤ 0xFFFF) :
    pack_frame ft msgId seq total payload =
      .ok (frameBytes ft msgId seq total payload) := by
  rw [pack_frame]
  rw [if_neg (by omega), if_neg (by omega), if_neg (by omega),
    if_neg (by omega), if_neg (by omega)]
  simp [frameBytes, List.append_assoc]

lemma take_four_cons (a b c d : ℕ) (l : List ℕ) :
    (a :: b :: c :: d :: l).take 4 = [a, b, c, d] := rfl

lemma unpack_frameBytes_append (ft msgId seq total : ℕ) (payload : List ℕ)
    (tail : List ℕ)
    (hm : msgId ≤ 0xFFFF) (hs : seq ≤ 0xFFFF)
    (ht : total ≤ 0xFFFF) (hp : payload.length ≤ 0xFFFF)
    (hft : ft ≤ 0xFF) (hb : ∀ b ∈ payload, b < 256) :
    unpack_frame (frameBytes ft msgId seq total payload ++ tail) =
      .ok (ft, msgId, seq, total, payload) := by
  have hbytes : ∀ x ∈ 0x43 :: 0x50 :: 1 :: ft :: 0 :: 0 ::
      msgId / 256 % 256 :: msgId % 256 :: seq / 256 % 256 :: seq % 256 ::
      total / 256 % 256 :: total % 256 :: payload.length / 256 % 256 ::
      payload.length % 256 :: payload, x < 256 := by
    intro x hx
    simp only [List.mem_cons] at hx
    rcases hx with rfl | rfl | rfl | rfl | rfl | rfl | rfl | rfl | rfl |
      rfl | rfl | rfl | rfl | rfl | hx
    all_goals first | omega | exact hb _ hx
  have hc := crc32_lt hbytes
  rw [frameBytes]
  simp only [u16be, u32be, List.cons_append, List.nil_append,
    List.append_assoc]
  rw [unpack_frame]
  rw [if_neg (by simp <;> omega), if_neg (by simp), if_neg (by simp)]
  simp only [beWord_split hp]
  rw [if_neg (by simp <;> omega)]
  simp only [List.take_left, List.drop_left, take_four_cons,
    List.getD_cons_zero, List.getD_cons_succ]
  simp only [List.cons_append, List.nil_append]
  simp only [beWord32_split hc]
  rw [if_neg (by simp)]
  rw [beWord_split hm, beWord_split hs, beWord_split ht]

/-- C1: for every frame_type in {0, 1}, msg_id, seq, total in
[0, 0xFFFF], and payload of at most 65535 bytes,
`unpack_frame (pack_frame ...)` succeeds and returns exactly the input
tuple. -/
theorem C1_roundtrip_framing (ft msgId seq total : ℕ) (payload : List ℕ)
    (hft : ft ≤ 1) (hm : msgId ≤ 0xFFFF) (hs : seq ≤ 0xFFFF)
    (ht : total ≤ 0xFFFF) (hp : payload.length ≤ 0xFFFF)
    (hb : ∀ b ∈ payload, b < 256) :
    ∃ raw, pack_frame ft msgId seq total payload = .ok raw ∧
      unpack_frame raw = .ok (ft, msgId, seq, total, payload) := by
  refine ⟨frameBytes ft msgId seq total payload,
    pack_frame_ok ft msgId seq total payload (by omega) hm hs ht hp, ?_⟩
  have h := unpack_frameBytes_append ft msgId seq total payload []
    hm hs ht hp (by omega) hb
  simpa using h

theorem C1_roundtrip_framing_witness :
    ∃ raw, pack_frame 0 1 2 3 [104, 105] = .ok raw ∧
      unpack_frame raw = .ok (0, 1, 2, 3, [104, 105]) :=
  C1_roundtrip_framing 0 1 2 3 [104, 105] (by omega) (by omega) (by omega)
    (by omega) (by simp) (by simp)

set_option maxRecDepth 40000 in
/-- C3 fails on the code: a valid 18-byte frame followed by an extra
trailing byte is still accepted (the decoder never checks for bytes
beyond the CRC), whereas the claim says any input strictly longer than
`14 + L + 4` whose prefix is a valid frame is rejected. -/
theorem C3_counterexample :
    unpack_frame (frameBytes 0 1 0 1 []) = .ok (0, 1, 0, 1, []) ∧
      (frameBytes 0 1 0 1 [] ++ [0]).length = 19 ∧
      unpack_frame (frameBytes 0 1 0 1 [] ++ [0]) = .ok (0, 1, 0, 1, []) := by
  refine ⟨by rfl, by rfl, by rfl⟩

/-- C3 amended: `unpack_frame` accepts any input whose first
`14 + L + 4` bytes form a valid frame, regardless of trailing bytes;
the declared length check only rejects inputs that are too short, and
the CRC is verified over exactly the first `14 + L` bytes. -/
theorem C3_trailing_bytes_ignored (ft msgId seq total : ℕ)
    (payload tail raw : List ℕ)
    (hft : ft ≤ 0xFF) (hm : msgId ≤ 0xFFFF) (hs : seq ≤ 0xFFFF)
    (ht : total ≤ 0xFFFF) (hp : payload.length ≤ 0xFFFF)
    (hb : ∀ b ∈ payload, b < 256)
    (hpack : pack_frame ft msgId seq total payload = .ok raw) :
    unpack_frame (raw ++ tail) = .ok (ft, msgId, seq, total, payload) := by
  rw [pack_frame_ok ft msgId seq total payload hft hm hs ht hp] at hpack
  cases hpack
  exact unpack_frameBytes_append ft msgId seq total payload tail
    hm hs ht hp hft hb

theorem C3_trailing_bytes_ignored_witness :
    unpack_frame (frameBytes 0 1 2 3 [104, 105] ++ [9, 9]) =
      .ok (0, 1, 2, 3, [104, 105]) :=
  C3_trailing_bytes_ignored 0 1 2 3 [104, 105] [9, 9] _
    (by omega) (by omega) (by omega) (by omega) (by simp) (by simp) rfl

/-! ## Fragmentation round-trip -/

lemma exceptMap_ok {α β : Type} (f : α → Except String β) (g : α → β)
    (l : List α) (h : ∀ x ∈ l, f x = .ok (g x)) :
    exceptMap f l = .ok (l.map g) := by
  induction l with
  | nil => rfl
  | cons a l ih =>
    rw [exceptMap, h a (by simp), ih (fun x hx => h x (by simp [hx]))]
    simp

lemma fragTotal_pos (L k : ℕ) : 1 ≤ fragTotal L k := by
  unfold fragTotal
  split
  · omega
  · exact Nat.pos_of_ne_zero (by assumption)

lemma fragTotal_eq_max (L k : ℕ) :
    fragTotal L k = max ((L + k - 1) / k) 1 := by
  unfold fragTotal
  split
  next h => simp [h]
  next h => exact (Nat.max_eq_left (Nat.one_le_iff_ne_zero.mpr h)).symm

lemma le_fragTotal_mul (L k : ℕ) (hk : 1 ≤ k) : L ≤ fragTotal L k * k := by
  have h1 : L + k - 1 < (L + k - 1) / k * k + k :=
    Nat.lt_div_mul_add (by omega)
  unfold fragTotal
  split
  next h => rw [h] at h1; omega
  next h => omega

lemma fragment_message_ok (payload : List ℕ) (msgId k : ℕ)
    (hk : 1 ≤ k) (hm : msgId ≤ 0xFFFF)
    (htot : fragTotal payload.length k ≤ 0xFFFF)
    (hmin : min k payload.length ≤ 0xFFFF) :
    fragment_message payload msgId k =
      .ok ((List.range (fragTotal payload.length k)).map
        (fun i => frameBytes 0 msgId i (fragTotal payload.length k)
          ((payload.drop (i * k)).take k))) := by
  rw [fragment_message, if_neg (by omega)]
  have hT : (if (payload.length + (k : ℤ).toNat - 1) / (k : ℤ).toNat = 0
      then 1 else (payload.length + (k : ℤ).toNat - 1) / (k : ℤ).toNat) =
      fragTotal payload.length k := rfl
  simp only [hT]
  apply exceptMap_ok
  intro i hi
  simp only [List.mem_range] at hi
  have hslice : ((payload.drop (i * k)).take k).length ≤ 0xFFFF := by
    simp only [List.length_take, List.length_drop]
    omega
  have h := pack_frame_ok 0 msgId i (fragTotal payload.length k)
    ((payload.drop (i * k)).take k) (by omega) hm (by omega) htot hslice
  have hcast : ((0 : ℕ) : ℤ) = (0 : ℤ) := rfl
  rw [hcast] at h
  exact h

lemma dictInsert_of_fresh (d : List (ℕ × List ℕ)) (k : ℕ) (v : List ℕ)
    (h : ∀ p ∈ d, p.1 ≠ k) : dictInsert d k v = d ++ [(k, v)] := by
  unfold dictInsert
  rw [if_neg]
  simp only [List.any_eq_true, decide_eq_true_eq, not_exists, not_and]
  exact h

lemma fragDictStep_ok {d : List (ℕ × List ℕ)} {f : List ℕ}
    {a b c e : ℕ} {part : List ℕ}
    (h : unpack_frame f = .ok (a, b, c, e, part)) :
    fragDictStep d f = dictInsert d c part := by
  rw [fragDictStep, h]

lemma fragmentsAsDict_of_decodable (g : ℕ → List ℕ) (msgId T k : ℕ)
    (payload : List ℕ)
    (hdec : ∀ i < T, unpack_frame (g i) =
      .ok (0, msgId, i, T, (payload.drop (i * k)).take k)) :
    fragmentsAsDict ((List.range T).map g) =
      (List.range T).map (fun i => (i, (payload.drop (i * k)).take k)) := by
  suffices h : ∀ n ≤ T, fragmentsAsDict ((List.range n).map g) =
      (List.range n).map (fun i => (i, (payload.drop (i * k)).take k)) from
    h T le_rfl
  intro n hn
  induction n with
  | zero => rfl
  | succ n ih =>
    rw [List.range_succ, List.map_append, List.map_append]
    unfold fragmentsAsDict at ih ⊢
    rw [List.foldl_append, ih (by omega)]
    simp only [List.map_cons, List.map_nil, List.foldl_cons, List.foldl_nil]
    rw [fragDictStep_ok (hdec n (by omega))]
    rw [dictInsert_of_fresh]
    intro p hp
    simp only [List.mem_map, List.mem_range] at hp
    obtain ⟨i, hi, rfl⟩ := hp
    show i ≠ n
    omega

lemma lookup_cons (k : ℕ) (v : List ℕ) (d : List (ℕ × List ℕ)) (a : ℕ) :
    ((k, v) :: d).lookup a = if a = k then some v else d.lookup a := by
  by_cases h : a = k
  · subst h; simp [List.lookup]
  · have hb : (a == k) = false := by simp [h]
    simp [List.lookup, hb, h]

lemma lookup_append_left (d₁ d₂ : List (ℕ × List ℕ)) (a : ℕ)
    (h : ∀ p ∈ d₁, p.1 ≠ a) : (d₁ ++ d₂).lookup a = d₂.lookup a := by
  induction d₁ with
  | nil => rfl
  | cons p d₁ ih =>
    rw [List.cons_append]
    obtain ⟨k, v⟩ := p
    rw [lookup_cons, if_neg]
    · exact ih (fun q hq => h q (by simp [hq]))
    · have hk := h (k, v) (by simp)
      simp at hk
      omega
  

lemma lookup_map_range (g : ℕ → List ℕ) (T j : ℕ) (hj : j < T) :
    ((List.range T).map (fun i => (i, g i))).lookup j = some (g j) := by
  induction T with
  | zero => omega
  | succ T ih =>
    rw [List.range_succ, List.map_append]
    by_cases h : j < T
    · rw [List.lookup_append]
      rw [ih h]
      rfl
    · have hjT : j = T := by omega
      subst hjT
      rw [lookup_append_left]
      · simp [lookup_cons]
      · intro p hp
        simp only [List.mem_map, List.mem_range] at hp
        obtain ⟨i, hi, rfl⟩ := hp
        show i ≠ j
        omega

lemma lookupAll_ok (d : List (ℕ × List ℕ)) (g : ℕ → List ℕ)
    (ss : List ℕ) (h : ∀ s ∈ ss, d.lookup s = some (g s)) :
    lookupAll d ss = some (ss.map g) := by
  induction ss with
  | nil => rfl
  | cons s ss ih =>
    rw [lookupAll, h s (by simp), ih (fun x hx => h x (by simp [hx]))]
    rfl

lemma join_chunks (k : ℕ) (hk : 1 ≤ k) :
    ∀ (total : ℕ) (P : List ℕ), P.length ≤ total * k →
      ((List.range total).map (fun i => (P.drop (i * k)).take k)).flatten
        = P := by
  intro total
  induction total with
  | zero =>
    intro P hP
    simp at hP
    simp [hP]
  | succ n ih =>
    intro P hP
    rw [List.range_succ_eq_map]
    rw [List.map_cons, List.map_map]
    have hmap : (List.range n).map
        ((fun i => (P.drop (i * k)).take k) ∘ Nat.succ) =
        (List.range n).map (fun i => ((P.drop k).drop (i * k)).take k) := by
      apply List.map_congr_left
      intro i _
      have : P.drop (Nat.succ i * k) = (P.drop k).drop (i * k) := by
        rw [List.drop_drop]
        congr 1
        simp [Nat.succ_eq_add_one]
        ring
      simp [Function.comp, this]
    rw [hmap]
    rw [List.flatten_cons]
    have hd : ((P.drop k).length ≤ n * k) := by
      simp only [List.length_drop]
      have hnk : (n + 1) * k = n * k + k := by ring
      rw [hnk] at hP
      omega
    rw [ih (P.drop k) hd]
    simp

lemma getD_map_range (g : ℕ → List ℕ) (T i : ℕ) (h : i < T) :
    ((List.range T).map g).getD i [] = g i := by
  rw [List.getD_eq_getElem?_getD, List.getElem?_map, List.getElem?_range h]
  rfl

lemma reassemble_chunks (payload : List ℕ) (k T : ℕ) (hk : 1 ≤ k)
    (hT : 1 ≤ T) (hcov : payload.length ≤ T * k) :
    reassemble_frames
      ((List.range T).map (fun i => (i, (payload.drop (i * k)).take k)))
      T = .ok (some payload) := by
  rw [reassemble_frames]
  rw [if_neg (by omega), if_neg (by simp)]
  simp only [Int.toNat_natCast]
  rw [lookupAll_ok _ (fun j => (payload.drop (j * k)).take k) _
    (fun s hs => lookup_map_range _ T s (by simpa using hs))]
  simp [join_chunks k hk T payload hcov]

/-- C2 amended: under the field limits that `pack_frame` enforces
(`msg_id`, the fragment count, and the fragment size all at most
0xFFFF), `fragment_message` produces exactly `max(ceil(|P|/k), 1)` DATA
frames, fragment `i` carries bytes `[i*k, min((i+1)*k, |P|))` with
`seq = i` and the fragment count as `total`, reassembly of the decoded
fragments yields exactly `P`, and a non-positive `max_payload` is an
invalid-argument error.  (Without those limits the claim fails; see the
counterexample.) -/
theorem C2_fragment_roundtrip (payload : List ℕ) (msgId k : ℕ)
    (hk : 1 ≤ k) (hm : msgId ≤ 0xFFFF) (hb : ∀ b ∈ payload, b < 256)
    (htot : fragTotal payload.length k ≤ 0xFFFF)
    (hmin : min k payload.length ≤ 0xFFFF) :
    ∃ frames, fragment_message payload msgId k = .ok frames ∧
      frames.length = max ((payload.length + k - 1) / k) 1 ∧
      (∀ i, i < frames.length → unpack_frame (frames.getD i []) =
        .ok (TYPE_DATA, msgId, i, fragTotal payload.length k,
          (payload.drop (i * k)).take k)) ∧
      reassemble_frames (fragmentsAsDict frames)
        (fragTotal payload.length k) = .ok (some payload) ∧
      (∀ m : ℤ, m ≤ 0 →
        fragment_message payload msgId m =
          .error "max_payload must be > 0") := by
  have hdec : ∀ i < fragTotal payload.length k,
      unpack_frame (frameBytes 0 msgId i (fragTotal payload.length k)
        ((payload.drop (i * k)).take k)) =
      .ok (0, msgId, i, fragTotal payload.length k,
        (payload.drop (i * k)).take k) := by
    intro i hi
    have hslice : ((payload.drop (i * k)).take k).length ≤ 0xFFFF := by
      simp only [List.length_take, List.length_drop]
      omega
    have hsb : ∀ b ∈ (payload.drop (i * k)).take k, b < 256 := by
      intro b hbm
      exact hb b (List.mem_of_mem_drop (List.mem_of_mem_take hbm))
    have h := unpack_frameBytes_append 0 msgId i
      (fragTotal payload.length k) ((payload.drop (i * k)).take k) []
      hm (by omega) htot hslice (by omega) hsb
    simpa using h
  refine ⟨_, fragment_message_ok payload msgId k hk hm htot hmin,
    ?_, ?_, ?_, ?_⟩
  · simp [fragTotal_eq_max]
  · intro i hi
    simp only [List.length_map, List.length_range] at hi
    rw [getD_map_range _ _ _ hi]
    exact hdec i hi
  · rw [fragmentsAsDict_of_decodable _ msgId (fragTotal payload.length k)
      k payload hdec]
    exact reassemble_chunks payload k (fragTotal payload.length k) hk
      (fragTotal_pos _ _) (le_fragTotal_mul _ _ hk)
  · intro m hm0
    rw [fragment_message, if_pos hm0]

theorem C2_fragment_roundtrip_witness :
    ∃ frames, fragment_message [1, 2, 3] 1 2 = .ok frames ∧
      frames.length = max ((List.length [1, 2, 3] + 2 - 1) / 2) 1 ∧
      (∀ i, i < frames.length → unpack_frame (frames.getD i []) =
        .ok (TYPE_DATA, 1, i, fragTotal (List.length [1, 2, 3]) 2,
          (List.drop (i * 2) [1, 2, 3]).take 2)) ∧
      reassemble_frames (fragmentsAsDict frames)
        (fragTotal (List.length [1, 2, 3]) 2) = .ok (some [1, 2, 3]) ∧
      (∀ m : ℤ, m ≤ 0 →
        fragment_message [1, 2, 3] 1 m =
          .error "max_payload must be > 0") :=
  C2_fragment_roundtrip [1, 2, 3] 1 2 (by omega) (by omega)
    (by intro b hbm; simp at hbm; omega) (by norm_num [fragTotal])
    (by norm_num)

/-- C2 as stated fails on the code: it quantifies over every payload,
but a 70000-byte payload with `max_payload = 70000` makes
`fragment_message` raise "payload too large" (the single fragment
exceeds the 16-bit length field) instead of producing
`max(ceil(70000/70000), 1) = 1` frame. -/
theorem C2_counterexample :
    fragment_message (List.replicate 70000 0) 1 70000 =
      .error "payload too large" := by
  have hpack : pack_frame 0 1 ((0 : ℕ) : ℤ) ((1 : ℕ) : ℤ)
      (((List.replicate 70000 (0 : ℕ)).drop ((0 : ℕ) * 70000)).take 70000)
      = .error "payload too large" := by
    rw [pack_frame]
    rw [if_neg (by norm_num), if_neg (by norm_num), if_neg (by norm_num)]
    rw [if_pos (by
      rw [List.length_take, List.length_drop, List.length_replicate]
      norm_num)]
  have hstep : exceptMap
      (fun seq => pack_frame 0 1 (seq : ℕ) ((1 : ℕ) : ℤ)
        (((List.replicate 70000 (0 : ℕ)).drop (seq * 70000)).take 70000))
      [0] = .error "payload too large" := by
    generalize hf : (fun seq => pack_frame 0 1 (seq : ℕ) ((1 : ℕ) : ℤ)
      (((List.replicate 70000 (0 : ℕ)).drop (seq * 70000)).take 70000)) = f
    have hf0 : f 0 = .error "payload too large" := by
      rw [← hf]; exact hpack
    rw [exceptMap, hf0]
  have hmid : fragment_message (List.replicate 70000 0) 1 70000 =
      exceptMap
      (fun seq => pack_frame 0 1 (seq : ℕ) ((1 : ℕ) : ℤ)
        (((List.replicate 70000 (0 : ℕ)).drop (seq * 70000)).take 70000))
      [0] := by
    rw [fragment_message, if_neg (by norm_num)]
    have hk : ((70000 : ℤ)).toNat = 70000 := rfl
    simp only [hk, List.length_replicate]
    have h1 : (70000 + 70000 - 1) / 70000 = 1 := by norm_num
    simp only [h1, if_neg (by norm_num : ¬ (1 : ℕ) = 0)]
    rw [show List.range 1 = [0] from rfl]
  rw [hmid, hstep]

/-! ## GBN receiver: ACK policy (out-of-order frames) -/

lemma on_data_out_of_order (st : GBNReceiverState) (raw : List ℕ)
    (seq total : ℕ) (payload : List ℕ)
    (hdec : unpack_frame raw = .ok (TYPE_DATA, st.msg_id, seq, total, payload))
    (hseq : seq ≠ st.expected_seq) :
    GBNReceiver_on_data st raw =
      (if st.total = none then { st with total := some total } else st,
       .ok (some (st.msg_id, max (-1) ((st.expected_seq : ℤ) - 1)))) := by
  by_cases h : st.total = none <;>
    simp [GBNReceiver_on_data, hdec, hseq, h]

lemma gbnPumpFrame_suppressed (st : GBNReceiverState) (framesTotal : ℕ)
    (raw : List ℕ) (seq total : ℕ) (payload : List ℕ)
    (hdec : unpack_frame raw = .ok (TYPE_DATA, st.msg_id, seq, total, payload))
    (hseq : seq ≠ st.expected_seq) (hexp0 : st.expected_seq = 0)
    (hmsg : st.msg_id ≤ 0xFFFF) :
    gbnPumpFrame st framesTotal raw =
      ((if st.total = none then { st with total := some total } else st),
        none, 1) := by
  have hmax : max (-1) ((st.expected_seq : ℤ) - 1) = -1 := by
    rw [hexp0]; rfl
  have hpack : ∀ t : ℤ, pack_ack st.msg_id (-1) t =
      .error "seq out of range" := by
    intro t
    rw [pack_ack, pack_frame]
    rw [if_neg (by omega), if_pos (by omega)]
  simp only [gbnPumpFrame,
    on_data_out_of_order st raw seq total payload hdec hseq, hmax, hpack]

lemma gbnPumpFrame_cumulative (st : GBNReceiverState) (framesTotal : ℕ)
    (raw : List ℕ) (seq total : ℕ) (payload : List ℕ)
    (hdec : unpack_frame raw = .ok (TYPE_DATA, st.msg_id, seq, total, payload))
    (hseq : seq ≠ st.expected_seq) (hpos : 0 < st.expected_seq)
    (hmsg : st.msg_id ≤ 0xFFFF) (hexp : st.expected_seq ≤ 0xFFFF)
    (ht : total ≤ 0xFFFF) (hst : ∀ t, st.total = some t → t ≤ 0xFFFF)
    (hfr : framesTotal ≤ 0xFFFF) :
    ∃ t', t' ≤ 0xFFFF ∧
      gbnPumpFrame st framesTotal raw =
        ((if st.total = none then { st with total := some total } else st),
          some (frameBytes 1 st.msg_id (st.expected_seq - 1) t' []), 0) := by
  have hmax : max (-1) ((st.expected_seq : ℤ) - 1) =
      ((st.expected_seq - 1 : ℕ) : ℤ) := by omega
  have hT'le : ((if st.total = none then { st with total := some total }
      else st).total.getD framesTotal) ≤ 0xFFFF := by
    rcases hto : st.total with _ | t0
    · simp [hto, ht]
    · simp [hto, hst t0 hto]
  have hpk := pack_frame_ok 1 st.msg_id (st.expected_seq - 1)
    ((if st.total = none then { st with total := some total }
      else st).total.getD framesTotal) []
    (by omega) hmsg (by omega) hT'le (by simp)
  simp only [show ((1 : ℕ) : ℤ) = (1 : ℤ) from rfl] at hpk
  refine ⟨_, hT'le, ?_⟩
  simp only [gbnPumpFrame,
    on_data_out_of_order st raw seq total payload hdec hseq, hmax,
    pack_ack, hpk]

/-- C5: in the Go-Back-N receiver, for every accepted DATA frame with
`seq != expected_seq`: if `expected_seq > 0` a cumulative ACK with
`seq = expected_seq - 1` is emitted to the ack channel, and if
`expected_seq = 0` no ACK is emitted at all. -/
theorem C5_gbn_ack_policy (st : GBNReceiverState) (framesTotal : ℕ)
    (raw : List ℕ) (seq total : ℕ) (payload : List ℕ)
    (hdec : unpack_frame raw = .ok (TYPE_DATA, st.msg_id, seq, total, payload))
    (hseq : seq ≠ st.expected_seq)
    (hmsg : st.msg_id ≤ 0xFFFF) (hexp : st.expected_seq ≤ 0xFFFF)
    (ht : total ≤ 0xFFFF) (hst : ∀ t, st.total = some t → t ≤ 0xFFFF)
    (hfr : framesTotal ≤ 0xFFFF) :
    (0 < st.expected_seq →
      ∃ ackFrame t', (gbnPumpFrame st framesTotal raw).2.1 = some ackFrame ∧
        unpack_frame ackFrame =
          .ok (TYPE_ACK, st.msg_id, st.expected_seq - 1, t', [])) ∧
    (st.expected_seq = 0 →
      (gbnPumpFrame st framesTotal raw).2.1 = none) := by
  constructor
  · intro hpos
    obtain ⟨t', ht', heq⟩ := gbnPumpFrame_cumulative st framesTotal raw
      seq total payload hdec hseq hpos hmsg hexp ht hst hfr
    refine ⟨frameBytes 1 st.msg_id (st.expected_seq - 1) t' [], t', ?_, ?_⟩
    · rw [heq]
    · have h := unpack_frameBytes_append 1 st.msg_id (st.expected_seq - 1)
        t' [] [] hmsg (by omega) ht' (by simp) (by omega) (by simp)
      simpa [TYPE_ACK] using h
  · intro hexp0
    rw [gbnPumpFrame_suppressed st framesTotal raw seq total payload hdec
      hseq hexp0 hmsg]

/-- C10: a CRC-valid DATA frame with `seq != 0` arriving while
`expected_seq` is still 0 increments `crc_fail_total` by one and sends
no ACK: the suppressed ACK is realized as `pack_ack` with `seq = -1`,
whose out-of-range error the pump's exception handler counts as a CRC
failure. -/
theorem C10_spurious_crc_count (st : GBNReceiverState) (framesTotal : ℕ)
    (raw : List ℕ) (seq total : ℕ) (payload : List ℕ)
    (hdec : unpack_frame raw = .ok (TYPE_DATA, st.msg_id, seq, total, payload))
    (hexp0 : st.expected_seq = 0) (hseq : seq ≠ 0)
    (hmsg : st.msg_id ≤ 0xFFFF) :
    (gbnPumpFrame st framesTotal raw).2.2 = 1 ∧
      (gbnPumpFrame st framesTotal raw).2.1 = none := by
  rw [gbnPumpFrame_suppressed st framesTotal raw seq total payload hdec
    (by omega) hexp0 hmsg]
  exact ⟨rfl, rfl⟩

set_option maxRecDepth 40000 in
theorem C5_gbn_ack_policy_witness :
    (0 < 2 →
      ∃ ackFrame t',
        (gbnPumpFrame ⟨5, 2, some 3, [(0, [1]), (1, [2])], none⟩ 3
          (frameBytes 0 5 0 3 [9])).2.1 = some ackFrame ∧
        unpack_frame ackFrame = .ok (TYPE_ACK, 5, 1, t', [])) ∧
    ((2 : ℕ) = 0 →
      (gbnPumpFrame ⟨5, 2, some 3, [(0, [1]), (1, [2])], none⟩ 3
        (frameBytes 0 5 0 3 [9])).2.1 = none) :=
  C5_gbn_ack_policy ⟨5, 2, some 3, [(0, [1]), (1, [2])], none⟩ 3
    (frameBytes 0 5 0 3 [9]) 0 3 [9] (by rfl) (by decide) (by decide)
    (by decide) (by decide) (by intro t h; simp at h; omega) (by decide)

set_option maxRecDepth 40000 in
theorem C10_spurious_crc_count_witness :
    (gbnPumpFrame (GBNReceiver_new 5) 3 (frameBytes 0 5 1 3 [7])).2.2 = 1 ∧
      (gbnPumpFrame (GBNReceiver_new 5) 3 (frameBytes 0 5 1 3 [7])).2.1 =
        none :=
  C10_spurious_crc_count (GBNReceiver_new 5) 3 (frameBytes 0 5 1 3 [7])
    1 3 [7] (by rfl) (by rfl) (by decide) (by decide)

/-! ## GBN receiver invariant: parts keys are exactly [0, expected_seq) -/

lemma lookup_isSome_of_key_mem (d : List (ℕ × List ℕ)) (p : ℕ × List ℕ)
    (k : ℕ) (hp : p ∈ d) (hpk : p.1 = k) :
    (d.lookup k).isSome = true := by
  induction d with
  | nil => cases hp
  | cons q d ih =>
    obtain ⟨a, b⟩ := q
    rw [lookup_cons]
    by_cases h : k = a
    · simp [h]
    · rw [if_neg h]
      rcases List.mem_cons.1 hp with rfl | hmem
      · simp at hpk
        exact absurd hpk.symm h
      · exact ih hmem

lemma lookup_map_replace (d : List (ℕ × List ℕ)) (j k : ℕ) (v : List ℕ) :
    ((d.map (fun p => if p.1 = k then (k, v) else p)).lookup j).isSome =
      (d.lookup j).isSome := by
  induction d with
  | nil => rfl
  | cons q d ih =>
    obtain ⟨a, b⟩ := q
    by_cases h : a = k
    · subst h
      simp only [List.map_cons, if_pos rfl]
      rw [lookup_cons, lookup_cons]
      by_cases hj : j = a <;> simp [hj, ih]
    · simp only [List.map_cons, if_neg h]
      rw [lookup_cons, lookup_cons]
      by_cases hj : j = a <;> simp [hj, ih]

lemma lookup_isSome_dictInsert (d : List (ℕ × List ℕ)) (j k : ℕ)
    (v : List ℕ) :
    (((dictInsert d k v).lookup j).isSome = true) ↔
      (j = k ∨ (d.lookup j).isSome = true) := by
  unfold dictInsert
  split
  next hany =>
    simp only [List.any_eq_true, decide_eq_true_eq] at hany
    obtain ⟨p, hp, hpk⟩ := hany
    rw [lookup_map_replace]
    constructor
    · exact fun h => Or.inr h
    · rintro (rfl | h)
      · exact lookup_isSome_of_key_mem d p j hp hpk
      · exact h
  next hany =>
    rw [List.lookup_append]
    rcases hd : d.lookup j with _ | w
    · rw [lookup_cons]
      by_cases hj : j = k <;> simp [hj, hd]
    · simp [hd]

/-- The GBN receiver invariant: the reassembly map holds exactly the
keys `[0, expected_seq)`. -/
def gbnInv (st : GBNReceiverState) : Prop :=
  ∀ j, ((st.parts.lookup j).isSome = true ↔ j < st.expected_seq)

lemma on_data_state_cases (st : GBNReceiverState) (raw : List ℕ) :
    ((GBNReceiver_on_data st raw).1.parts = st.parts ∧
      (GBNReceiver_on_data st raw).1.expected_seq = st.expected_seq) ∨
    (∃ payload, (GBNReceiver_on_data st raw).1.parts =
        dictInsert st.parts st.expected_seq payload ∧
      (GBNReceiver_on_data st raw).1.expected_seq =
        st.expected_seq + 1) := by
  unfold GBNReceiver_on_data
  cases hdec : unpack_frame raw with
  | error e => simp
  | ok t =>
    obtain ⟨ft, mid, seq, total, payload⟩ := t
    by_cases hcond : ft ≠ TYPE_DATA ∨ mid ≠ st.msg_id
    · left
      simp [hcond]
    · by_cases hseq : seq ≠ st.expected_seq
      · left
        by_cases htot : st.total = none <;>
          simp [hcond, htot, hseq]
      · right
        refine ⟨payload, ?_⟩
        push_neg at hseq
        subst hseq
        by_cases htot : st.total = none
        · rcases hre : reassemble_frames
              (dictInsert st.parts st.expected_seq payload)
              (total : ℤ) with e | o
          · simp [hcond, htot, hre]
          · rcases o with _ | asm <;> simp [hcond, htot, hre]
        · rcases hto2 : st.total with _ | t0
          · exact absurd hto2 htot
          · rcases hre : reassemble_frames
                (dictInsert st.parts st.expected_seq payload)
                (t0 : ℤ) with e | o
            · simp [hcond, htot, hto2, hre]
            · rcases o with _ | asm <;> simp [hcond, htot, hto2, hre]

lemma on_data_preserves_inv (st : GBNReceiverState) (raw : List ℕ)
    (h : gbnInv st) : gbnInv (GBNReceiver_on_data st raw).1 := by
  rcases on_data_state_cases st raw with ⟨hp, he⟩ | ⟨payload, hp, he⟩
  · intro j
    rw [hp, he]
    exact h j
  · intro j
    rw [hp, he, lookup_isSome_dictInsert]
    have := h j
    constructor
    · rintro (rfl | hs)
      · omega
      · have := (h j).1 hs
        omega
    · intro hj
      by_cases hje : j = st.expected_seq
      · exact Or.inl hje
      · exact Or.inr ((h j).2 (by omega))

/-- C6: after any sequence of DATA frames, the GBN receiver's
reassembly map contains exactly the keys `[0, expected_seq)`: no
out-of-order fragment is ever stored, and `expected_seq` equals the
number of contiguous fragments stored starting at 0. -/
theorem C6_receiver_in_order (m : ℕ) (raws : List (List ℕ)) :
    ∀ j, (((gbnRunFrames (GBNReceiver_new m) raws).parts.lookup j).isSome
      = true ↔ j < (gbnRunFrames (GBNReceiver_new m) raws).expected_seq) := by
  have hstart : gbnInv (GBNReceiver_new m) := by
    intro j
    simp [GBNReceiver_new, List.lookup]
  suffices h : ∀ (st : GBNReceiverState), gbnInv st →
      gbnInv (gbnRunFrames st raws) from h _ hstart
  induction raws with
  | nil => exact fun st h => h
  | cons raw raws ih =>
    intro st h
    exact ih _ (on_data_preserves_inv st raw h)

/-- C7: in the GBN `run_once` main loop the sender's `base` never
decreases: each iteration's ACK handling is monotone in `base`, an ACK
whose `seq` is not greater than the last cumulative ACK is ignored
outright, and over any sequence of iterations `base` is
non-decreasing. -/
theorem C7_base_monotone :
    (∀ (st : GBNSenderState) (mt : ℤ) (ack : Option ℤ),
      st.base ≤ (gbnSenderAckStep st mt ack).1.base) ∧
    (∀ (st : GBNSenderState) (mt : ℤ) (a : ℤ), a ≤ st.last_ack →
      (gbnSenderAckStep st mt (some a)).1 = st) ∧
    (∀ (st : GBNSenderState) (mt : ℤ) (acks : List (Option ℤ)),
      st.base ≤ (gbnSenderTrace st mt acks).base) := by
  have hstep : ∀ (st : GBNSenderState) (mt : ℤ) (ack : Option ℤ),
      st.base ≤ (gbnSenderAckStep st mt ack).1.base := by
    intro st mt ack
    rcases ack with _ | a
    · rw [gbnSenderAckStep]
      split <;> simp
    · rw [gbnSenderAckStep]
      split
      · simp
      · simp
  refine ⟨hstep, ?_, ?_⟩
  · intro st mt a ha
    rw [gbnSenderAckStep, if_neg (by omega)]
  · intro st mt acks
    induction acks generalizing st with
    | nil => exact le_refl _
    | cons a acks ih =>
      calc st.base ≤ (gbnSenderAckStep st mt a).1.base := hstep st mt a
        _ ≤ (gbnSenderTrace (gbnSenderAckStep st mt a).1 mt acks).base :=
          ih _
        _ = (gbnSenderTrace st mt (a :: acks)).base := rfl

theorem C7_base_monotone_witness :
    ((⟨2, 3, 1, 0⟩ : GBNSenderState).base ≤
      (gbnSenderAckStep ⟨2, 3, 1, 0⟩ 20 (some 5)).1.base) ∧
    ((gbnSenderAckStep ⟨2, 3, 1, 0⟩ 20 (some 0)).1 =
      (⟨2, 3, 1, 0⟩ : GBNSenderState)) ∧
    ((⟨2, 3, 1, 0⟩ : GBNSenderState).base ≤
      (gbnSenderTrace ⟨2, 3, 1, 0⟩ 20 [some 5, none, some 2]).base) :=
  ⟨C7_base_monotone.1 ⟨2, 3, 1, 0⟩ 20 (some 5),
   C7_base_monotone.2.1 ⟨2, 3, 1, 0⟩ 20 0 (by norm_num),
   C7_base_monotone.2.2 ⟨2, 3, 1, 0⟩ 20 [some 5, none, some 2]⟩

/-! ## CRC-32 detects any single-byte change

Each shift-register step is injective on 32-bit states, so two inputs
of equal length that differ in exactly one byte have different CRCs. -/

lemma crcBitStep_inj {s1 s2 : ℕ} (h1 : s1 < 2 ^ 32) (h2 : s2 < 2 ^ 32)
    (h : crcBitStep s1 = crcBitStep s2) : s1 = s2 := by
  have hpoly : (0xEDB88320 : ℕ).testBit 31 = true := by decide
  unfold crcBitStep CRC_POLY at h
  by_cases p1 : s1 % 2 = 1 <;> by_cases p2 : s2 % 2 = 1
  · rw [if_pos p1, if_pos p2] at h
    have := Nat.xor_left_inj.mp h
    omega
  · rw [if_pos p1, if_neg p2] at h
    exfalso
    have hb : ((s1 / 2) ^^^ 0xEDB88320).testBit 31 = true := by
      rw [Nat.testBit_xor,
        Nat.testBit_eq_false_of_lt (show s1 / 2 < 2 ^ 31 by omega), hpoly]
      rfl
    rw [h, Nat.testBit_eq_false_of_lt
      (show s2 / 2 < 2 ^ 31 by omega)] at hb
    cases hb
  · rw [if_neg p1, if_pos p2] at h
    exfalso
    have hb : ((s2 / 2) ^^^ 0xEDB88320).testBit 31 = true := by
      rw [Nat.testBit_xor,
        Nat.testBit_eq_false_of_lt (show s2 / 2 < 2 ^ 31 by omega), hpoly]
      rfl
    rw [← h, Nat.testBit_eq_false_of_lt
      (show s1 / 2 < 2 ^ 31 by omega)] at hb
    cases hb
  · rw [if_neg p1, if_neg p2] at h
    omega

lemma crcBitStep_iter_inj (n : ℕ) {s1 s2 : ℕ} (h1 : s1 < 2 ^ 32)
    (h2 : s2 < 2 ^ 32) (h : crcBitStep^[n] s1 = crcBitStep^[n] s2) :
    s1 = s2 := by
  induction n generalizing s1 s2 with
  | zero => simpa using h
  | succ n ih =>
    rw [Function.iterate_succ_apply, Function.iterate_succ_apply] at h
    exact crcBitStep_inj h1 h2
      (ih (crcBitStep_lt h1) (crcBitStep_lt h2) h)

lemma crcByteStep_inj_state {s1 s2 b : ℕ} (h1 : s1 < 2 ^ 32)
    (h2 : s2 < 2 ^ 32) (hb : b < 2 ^ 32)
    (h : crcByteStep s1 b = crcByteStep s2 b) : s1 = s2 := by
  unfold crcByteStep at h
  have := crcBitStep_iter_inj 8 (Nat.xor_lt_two_pow h1 hb)
    (Nat.xor_lt_two_pow h2 hb) h
  exact Nat.xor_left_inj.mp this

lemma crcByteStep_inj_byte {s b1 b2 : ℕ} (hs : s < 2 ^ 32)
    (hb1 : b1 < 2 ^ 32) (hb2 : b2 < 2 ^ 32) (hne : b1 ≠ b2) :
    crcByteStep s b1 ≠ crcByteStep s b2 := by
  intro h
  unfold crcByteStep at h
  have := crcBitStep_iter_inj 8 (Nat.xor_lt_two_pow hs hb1)
    (Nat.xor_lt_two_pow hs hb2) h
  exact hne (Nat.xor_right_inj.mp this)

lemma crcFold_inj {bs : List ℕ} (hb : ∀ b ∈ bs, b < 256) :
    ∀ {s1 s2 : ℕ}, s1 < 2 ^ 32 → s2 < 2 ^ 32 → s1 ≠ s2 →
      bs.foldl crcByteStep s1 ≠ bs.foldl crcByteStep s2 := by
  induction bs with
  | nil => intro s1 s2 _ _ hne h; exact hne h
  | cons b bs ih =>
    intro s1 s2 h1 h2 hne h
    simp only [List.foldl_cons] at h
    have hb256 : b < 256 := hb b (by simp)
    have hstep : crcByteStep s1 b ≠ crcByteStep s2 b := by
      intro heq
      exact hne (crcByteStep_inj_state h1 h2 (by omega) heq)
    exact ih (fun x hx => hb x (by simp [hx]))
      (crcByteStep_lt h1 hb256) (crcByteStep_lt h2 hb256) hstep h

lemma crc32_byte_flip (pre post : List ℕ) (b1 b2 : ℕ)
    (hpre : ∀ x ∈ pre, x < 256) (hpost : ∀ x ∈ post, x < 256)
    (hb1 : b1 < 256) (hb2 : b2 < 256) (hne : b1 ≠ b2) :
    crc32 (pre ++ b1 :: post) ≠ crc32 (pre ++ b2 :: post) := by
  unfold crc32
  intro h
  have h2 := Nat.xor_left_inj.mp h
  rw [List.foldl_append, List.foldl_append] at h2
  simp only [List.foldl_cons] at h2
  have hs : pre.foldl crcByteStep 0xFFFFFFFF < 2 ^ 32 :=
    crcFold_lt (by norm_num) hpre
  have hstep : crcByteStep (pre.foldl crcByteStep 0xFFFFFFFF) b1 ≠
      crcByteStep (pre.foldl crcByteStep 0xFFFFFFFF) b2 :=
    crcByteStep_inj_byte hs (by omega) (by omega) hne
  exact crcFold_inj hpost (crcByteStep_lt hs hb1) (crcByteStep_lt hs hb2)
    hstep h2

lemma crc32_set_ne (body : List ℕ) (i : ℕ) (hi : i < body.length)
    (b' : ℕ) (hbytes : ∀ x ∈ body, x < 256) (hb' : b' < 256)
    (hne : b' ≠ body.getD i 0) :
    crc32 (body.set i b') ≠ crc32 body := by
  have hset : body.set i b' = body.take i ++ b' :: body.drop (i + 1) :=
    List.set_eq_take_cons_drop b' hi
  have hbody : body = body.take i ++ body.getD i 0 :: body.drop (i + 1) := by
    conv_lhs => rw [← List.take_append_drop i body]
    rw [List.drop_eq_get_cons hi]
    rw [List.getD_eq_getElem _ _ hi]
    rfl
  rw [hset]
  conv_rhs => rw [hbody]
  exact crc32_byte_flip (body.take i) (body.drop (i + 1)) b'
    (body.getD i 0)
    (fun x hx => hbytes x (List.mem_of_mem_take hx))
    (fun x hx => hbytes x (List.mem_of_mem_drop hx))
    hb' (hbytes _ (by
      rw [List.getD_eq_getElem _ _ hi]
      exact List.getElem_mem hi)) hne

lemma getD_drop_take (l : List ℕ) (W j : ℕ) (hj : j < 4) :
    ((l.drop W).take 4).getD j 0 = l.getD (W + j) 0 := by
  rw [List.getD_eq_getElem?_getD, List.getD_eq_getElem?_getD,
    List.getElem?_take_of_lt hj, List.getElem?_drop]

lemma unpack_ok_conditions (raw : List ℕ) (v : ℕ × ℕ × ℕ × ℕ × List ℕ)
    (h : unpack_frame raw = .ok v) :
    raw.getD 0 0 = 0x43 ∧ raw.getD 1 0 = 0x50 ∧ raw.getD 2 0 = 1 ∧
    14 + beWord (raw.getD 12 0) (raw.getD 13 0) + 4 ≤ raw.length ∧
    crc32 (raw.take (14 + beWord (raw.getD 12 0) (raw.getD 13 0))) =
      beWord32
        (raw.getD (14 + beWord (raw.getD 12 0) (raw.getD 13 0)) 0)
        (raw.getD (14 + beWord (raw.getD 12 0) (raw.getD 13 0) + 1) 0)
        (raw.getD (14 + beWord (raw.getD 12 0) (raw.getD 13 0) + 2) 0)
        (raw.getD (14 + beWord (raw.getD 12 0) (raw.getD 13 0) + 3) 0) := by
  rcases raw with _ | ⟨b0, raw⟩; · simp [unpack_frame] at h
  rcases raw with _ | ⟨b1, raw⟩; · simp [unpack_frame] at h
  rcases raw with _ | ⟨b2, raw⟩; · simp [unpack_frame] at h
  rcases raw with _ | ⟨b3, raw⟩; · simp [unpack_frame] at h
  rcases raw with _ | ⟨b4, raw⟩; · simp [unpack_frame] at h
  rcases raw with _ | ⟨b5, raw⟩; · simp [unpack_frame] at h
  rcases raw with _ | ⟨b6, raw⟩; · simp [unpack_frame] at h
  rcases raw with _ | ⟨b7, raw⟩; · simp [unpack_frame] at h
  rcases raw with _ | ⟨b8, raw⟩; · simp [unpack_frame] at h
  rcases raw with _ | ⟨b9, raw⟩; · simp [unpack_frame] at h
  rcases raw with _ | ⟨b10, raw⟩; · simp [unpack_frame] at h
  rcases raw with _ | ⟨b11, raw⟩; · simp [unpack_frame] at h
  rcases raw with _ | ⟨b12, raw⟩; · simp [unpack_frame] at h
  rcases raw with _ | ⟨b13, rest⟩; · simp [unpack_frame] at h
  rw [unpack_frame] at h
  simp only [ne_eq] at h
  split at h
  next hc1 => simp at h
  next hc1 =>
  split at h
  next hc2 => simp at h
  next hc2 =>
  split at h
  next hc3 => simp at h
  next hc3 =>
  split at h
  next hc4 => simp at h
  next hc4 =>
  split at h
  next hc5 => simp at h
  next hc5 =>
  simp only [ne_eq, not_not] at hc2 hc3 hc5
  simp only [List.cons.injEq, and_true] at hc2
  refine ⟨hc2.1, hc2.2, hc3, ?_, ?_⟩
  · show 14 + beWord b12 b13 + 4 ≤ rest.length + 14
    omega
  · have e12 : (b0 :: b1 :: b2 :: b3 :: b4 :: b5 :: b6 :: b7 :: b8 :: b9 ::
        b10 :: b11 :: b12 :: b13 :: rest).getD 12 0 = b12 := rfl
    have e13 : (b0 :: b1 :: b2 :: b3 :: b4 :: b5 :: b6 :: b7 :: b8 :: b9 ::
        b10 :: b11 :: b12 :: b13 :: rest).getD 13 0 = b13 := rfl
    rw [e12, e13]
    rw [show (14 : ℕ) + beWord b12 b13 + 3 = beWord b12 b13 + 17 from
      by omega]
    rw [show (14 : ℕ) + beWord b12 b13 + 2 = beWord b12 b13 + 16 from
      by omega]
    rw [show (14 : ℕ) + beWord b12 b13 + 1 = beWord b12 b13 + 15 from
      by omega]
    rw [show (14 : ℕ) + beWord b12 b13 = beWord b12 b13 + 14 from
      by omega]
    show crc32 ([b0, b1, b2, b3, b4, b5, b6, b7, b8, b9, b10, b11, b12,
        b13] ++ rest.take (beWord b12 b13)) =
      beWord32 (rest.getD (beWord b12 b13) 0)
        (rest.getD (beWord b12 b13 + 1) 0)
        (rest.getD (beWord b12 b13 + 2) 0)
        (rest.getD (beWord b12 b13 + 3) 0)
    have g0 := getD_drop_take rest (beWord b12 b13) 0 (by omega)
    rw [Nat.add_zero] at g0
    rw [← g0, ← getD_drop_take rest (beWord b12 b13) 1 (by omega),
      ← getD_drop_take rest (beWord b12 b13) 2 (by omega),
      ← getD_drop_take rest (beWord b12 b13) 3 (by omega)]
    exact hc5

lemma getD_set_ne' (l : List ℕ) {i j : ℕ} (a : ℕ) (h : i ≠ j) :
    (l.set i a).getD j 0 = l.getD j 0 := by
  rw [List.getD_eq_getElem?_getD, List.getD_eq_getElem?_getD,
    List.getElem?_set_ne h]

lemma getD_set_self' (l : List ℕ) {i : ℕ} (a : ℕ) (h : i < l.length) :
    (l.set i a).getD i 0 = a := by
  rw [List.getD_eq_getElem?_getD, List.getElem?_set_self h]
  rfl

lemma getD_lt_of_bytes {l : List ℕ} (h : ∀ x ∈ l, x < 256) {i : ℕ}
    (hi : i < l.length) : l.getD i 0 < 256 := by
  apply h
  rw [List.getD_eq_getElem _ _ hi]
  exact List.getElem_mem hi

lemma two_pow_lt_256 {k : ℕ} (hk : k < 8) : 2 ^ k < 256 := by
  calc 2 ^ k ≤ 2 ^ 7 := Nat.pow_le_pow_right (by omega) (by omega)
    _ < 256 := by norm_num

lemma xor_flip_ne (x k : ℕ) : x ^^^ 2 ^ k ≠ x := by
  intro h
  have h0 : x ^^^ 2 ^ k = x ^^^ 0 := by simpa using h
  have h2 := Nat.xor_right_inj.mp h0
  have := Nat.two_pow_pos k
  omega

lemma xor_flip_lt_256 {x k : ℕ} (hx : x < 256) (hk : k < 8) :
    x ^^^ 2 ^ k < 256 := by
  have e : (2 : ℕ) ^ 8 = 256 := by norm_num
  have h1 : x < 2 ^ 8 := by rw [e]; exact hx
  have h2 : 2 ^ k < 2 ^ 8 := by rw [e]; exact two_pow_lt_256 hk
  have h := Nat.xor_lt_two_pow h1 h2
  rw [e] at h
  exact h

lemma flip_error_in_body (B : List ℕ) (L i k : ℕ)
    (hBL : B.length = 14 + L) (hL : L ≤ 0xFFFF)
    (hbytes : ∀ x ∈ B, x < 256)
    (hB0 : B.getD 0 0 = 0x43) (hB1 : B.getD 1 0 = 0x50)
    (hB2 : B.getD 2 0 = 1)
    (hB12 : B.getD 12 0 = L / 256 % 256) (hB13 : B.getD 13 0 = L % 256)
    (hiB : i < B.length) (hi12 : i ≠ 12) (hi13 : i ≠ 13) (hk : k < 8)
    (v : ℕ × ℕ × ℕ × ℕ × List ℕ)
    (hu : unpack_frame ((B ++ u32be (crc32 B)).set i
      ((B ++ u32be (crc32 B)).getD i 0 ^^^ 2 ^ k)) = .ok v) : False := by
  have hc : crc32 B < 2 ^ 32 := crc32_lt hbytes
  have hgi : (B ++ u32be (crc32 B)).getD i 0 = B.getD i 0 :=
    List.getD_append _ _ 0 i hiB
  rw [hgi, List.set_append_left i _ hiB] at hu
  obtain ⟨g0, g1, g2, glen, gcrc⟩ := unpack_ok_conditions _ _ hu
  have hlenset : (B.set i (B.getD i 0 ^^^ 2 ^ k)).length = 14 + L := by
    simp [hBL]
  have e12 : ((B.set i (B.getD i 0 ^^^ 2 ^ k)) ++
      u32be (crc32 B)).getD 12 0 = L / 256 % 256 := by
    rw [List.getD_append _ _ 0 12 (by omega), getD_set_ne' _ _ hi12]
    exact hB12
  have e13 : ((B.set i (B.getD i 0 ^^^ 2 ^ k)) ++
      u32be (crc32 B)).getD 13 0 = L % 256 := by
    rw [List.getD_append _ _ 0 13 (by omega), getD_set_ne' _ _ hi13]
    exact hB13
  have hW : beWord (((B.set i (B.getD i 0 ^^^ 2 ^ k)) ++
      u32be (crc32 B)).getD 12 0)
      (((B.set i (B.getD i 0 ^^^ 2 ^ k)) ++ u32be (crc32 B)).getD 13 0)
      = L := by
    rw [e12, e13]
    exact beWord_split hL
  rw [hW] at gcrc
  by_cases hi3 : i < 3
  · have hset0 : ((B.set i (B.getD i 0 ^^^ 2 ^ k)) ++
        u32be (crc32 B)).getD i 0 = B.getD i 0 ^^^ 2 ^ k := by
      rw [List.getD_append _ _ 0 i (by omega), getD_set_self' _ _ hiB]
    have hI : i = 0 ∨ i = 1 ∨ i = 2 := by omega
    rcases hI with rfl | rfl | rfl
    · rw [hset0, hB0] at g0
      exact xor_flip_ne 0x43 k g0
    · rw [hset0, hB1] at g1
      exact xor_flip_ne 0x50 k g1
    · rw [hset0, hB2] at g2
      exact xor_flip_ne 1 k g2
  · have htake : ((B.set i (B.getD i 0 ^^^ 2 ^ k)) ++
        u32be (crc32 B)).take (14 + L) = B.set i (B.getD i 0 ^^^ 2 ^ k) :=
      List.take_left' hlenset
    have hcrc4 : ∀ j, ((B.set i (B.getD i 0 ^^^ 2 ^ k)) ++
        u32be (crc32 B)).getD (14 + L + j) 0 =
        (u32be (crc32 B)).getD j 0 := by
      intro j
      rw [List.getD_append_right _ _ 0 _ (by omega), hlenset,
        show 14 + L + j - (14 + L) = j from by omega]
    have hd0 := hcrc4 0
    rw [Nat.add_zero] at hd0
    rw [htake, hd0, hcrc4 1, hcrc4 2, hcrc4 3] at gcrc
    have hcomp : beWord32 ((u32be (crc32 B)).getD 0 0)
        ((u32be (crc32 B)).getD 1 0) ((u32be (crc32 B)).getD 2 0)
        ((u32be (crc32 B)).getD 3 0) = crc32 B := by
      show beWord32 (crc32 B / 2 ^ 24 % 256) (crc32 B / 2 ^ 16 % 256)
        (crc32 B / 2 ^ 8 % 256) (crc32 B % 256) = crc32 B
      exact beWord32_split hc
    rw [hcomp] at gcrc
    exact crc32_set_ne B i hiB (B.getD i 0 ^^^ 2 ^ k) hbytes
      (xor_flip_lt_256 (getD_lt_of_bytes hbytes hiB) hk)
      (xor_flip_ne _ k) gcrc

lemma beWord32_digit_eq {d0 d1 d2 d3 x0 x1 x2 x3 : ℕ}
    (h0 : d0 < 256) (h1 : d1 < 256) (h2 : d2 < 256) (h3 : d3 < 256)
    (g0 : x0 < 256) (g1 : x1 < 256) (g2 : x2 < 256) (g3 : x3 < 256)
    (h : beWord32 x0 x1 x2 x3 = beWord32 d0 d1 d2 d3) :
    x0 = d0 ∧ x1 = d1 ∧ x2 = d2 ∧ x3 = d3 := by
  unfold beWord32 at h
  omega

lemma flip_error_in_crc (B : List ℕ) (L i k : ℕ)
    (hBL : B.length = 14 + L) (hL : L ≤ 0xFFFF)
    (hbytes : ∀ x ∈ B, x < 256)
    (hB12 : B.getD 12 0 = L / 256 % 256) (hB13 : B.getD 13 0 = L % 256)
    (hiB : B.length ≤ i) (hi4 : i < B.length + 4) (hk : k < 8)
    (v : ℕ × ℕ × ℕ × ℕ × List ℕ)
    (hu : unpack_frame ((B ++ u32be (crc32 B)).set i
      ((B ++ u32be (crc32 B)).getD i 0 ^^^ 2 ^ k)) = .ok v) : False := by
  have hc : crc32 B < 2 ^ 32 := crc32_lt hbytes
  have hgi : (B ++ u32be (crc32 B)).getD i 0 =
      (u32be (crc32 B)).getD (i - B.length) 0 :=
    List.getD_append_right _ _ 0 i hiB
  rw [hgi, List.set_append_right i _ hiB] at hu
  obtain ⟨g0, g1, g2, glen, gcrc⟩ := unpack_ok_conditions _ _ hu
  have hj0lt : i - B.length < 4 := by omega
  have hu32len : (u32be (crc32 B)).length = 4 := u32be_length _
  have e12 : (B ++ (u32be (crc32 B)).set (i - B.length)
      ((u32be (crc32 B)).getD (i - B.length) 0 ^^^ 2 ^ k)).getD 12 0 =
      L / 256 % 256 := by
    rw [List.getD_append _ _ 0 12 (by omega)]
    exact hB12
  have e13 : (B ++ (u32be (crc32 B)).set (i - B.length)
      ((u32be (crc32 B)).getD (i - B.length) 0 ^^^ 2 ^ k)).getD 13 0 =
      L % 256 := by
    rw [List.getD_append _ _ 0 13 (by omega)]
    exact hB13
  rw [e12, e13, beWord_split hL] at gcrc
  have htake : (B ++ (u32be (crc32 B)).set (i - B.length)
      ((u32be (crc32 B)).getD (i - B.length) 0 ^^^ 2 ^ k)).take (14 + L) =
      B := List.take_left' hBL
  have hcrc4 : ∀ j, (B ++ (u32be (crc32 B)).set (i - B.length)
      ((u32be (crc32 B)).getD (i - B.length) 0 ^^^ 2 ^ k)).getD
        (14 + L + j) 0 =
      ((u32be (crc32 B)).set (i - B.length)
        ((u32be (crc32 B)).getD (i - B.length) 0 ^^^ 2 ^ k)).getD j 0 := by
    intro j
    rw [List.getD_append_right _ _ 0 _ (by omega), hBL,
      show 14 + L + j - (14 + L) = j from by omega]
  have hd0 := hcrc4 0
  rw [Nat.add_zero] at hd0
  rw [htake, hd0, hcrc4 1, hcrc4 2, hcrc4 3] at gcrc
  have hsplit : crc32 B = beWord32 ((u32be (crc32 B)).getD 0 0)
      ((u32be (crc32 B)).getD 1 0) ((u32be (crc32 B)).getD 2 0)
      ((u32be (crc32 B)).getD 3 0) := by
    show crc32 B = beWord32 (crc32 B / 2 ^ 24 % 256)
      (crc32 B / 2 ^ 16 % 256) (crc32 B / 2 ^ 8 % 256) (crc32 B % 256)
    exact (beWord32_split hc).symm
  have hdlt : ∀ j, (u32be (crc32 B)).getD j 0 < 256 := by
    intro j
    rcases j with _ | _ | _ | _ | j
    · show crc32 B / 2 ^ 24 % 256 < 256; omega
    · show crc32 B / 2 ^ 16 % 256 < 256; omega
    · show crc32 B / 2 ^ 8 % 256 < 256; omega
    · show crc32 B % 256 < 256; omega
    · show (0 : ℕ) < 256; omega
  have hnb : ((u32be (crc32 B)).getD (i - B.length) 0 ^^^ 2 ^ k) < 256 :=
    xor_flip_lt_256 (hdlt _) hk
  have hyne : ∀ j, j ≠ i - B.length →
      ((u32be (crc32 B)).set (i - B.length)
        ((u32be (crc32 B)).getD (i - B.length) 0 ^^^ 2 ^ k)).getD j 0 =
      (u32be (crc32 B)).getD j 0 := by
    intro j hj
    exact getD_set_ne' _ _ (fun hcon => hj hcon.symm)
  have hyeq : ((u32be (crc32 B)).set (i - B.length)
      ((u32be (crc32 B)).getD (i - B.length) 0 ^^^ 2 ^ k)).getD
        (i - B.length) 0 =
      (u32be (crc32 B)).getD (i - B.length) 0 ^^^ 2 ^ k :=
    getD_set_self' _ _ (by omega)
  have hylt : ∀ j, ((u32be (crc32 B)).set (i - B.length)
      ((u32be (crc32 B)).getD (i - B.length) 0 ^^^ 2 ^ k)).getD j 0 <
      256 := by
    intro j
    by_cases hj : j = i - B.length
    · rw [hj, hyeq]; exact hnb
    · rw [hyne j hj]; exact hdlt j
  have hdig := beWord32_digit_eq (hdlt 0) (hdlt 1) (hdlt 2) (hdlt 3)
    (hylt 0) (hylt 1) (hylt 2) (hylt 3) (hsplit.symm.trans gcrc).symm
  have hj : i - B.length = 0 ∨ i - B.length = 1 ∨ i - B.length = 2 ∨
      i - B.length = 3 := by omega
  rcases hj with hj | hj | hj | hj
  · have := hdig.1
    rw [hj] at this hyeq
    rw [hyeq] at this
    exact xor_flip_ne _ k this
  · have := hdig.2.1
    rw [hj] at this hyeq
    rw [hyeq] at this
    exact xor_flip_ne _ k this
  · have := hdig.2.2.1
    rw [hj] at this hyeq
    rw [hyeq] at this
    exact xor_flip_ne _ k this
  · have := hdig.2.2.2
    rw [hj] at this hyeq
    rw [hyeq] at this
    exact xor_flip_ne _ k this

/-- C4 amended: for every valid encoded frame and every single-bit flip
at a byte offset other than the two length-field bytes (12 and 13),
`unpack_frame` fails with an error (bad magic, bad version, or bad
CRC).  A flip inside the length field can make `unpack_frame` succeed
and return a different tuple; see the counterexample. -/
theorem C4_bitflip_detected (ft msgId seq total : ℕ)
    (payload raw : List ℕ)
    (hft : ft ≤ 0xFF) (hm : msgId ≤ 0xFFFF) (hs : seq ≤ 0xFFFF)
    (ht : total ≤ 0xFFFF) (hp : payload.length ≤ 0xFFFF)
    (hb : ∀ b ∈ payload, b < 256)
    (hpack : pack_frame ft msgId seq total payload = .ok raw)
    (i k : ℕ) (hil : i < raw.length) (hi12 : i ≠ 12) (hi13 : i ≠ 13)
    (hk : k < 8) :
    ∃ e, unpack_frame (flipBit raw i k) = .error e := by
  rw [pack_frame_ok ft msgId seq total payload hft hm hs ht hp] at hpack
  injection hpack with hraw
  subst hraw
  have hframe : frameBytes ft msgId seq total payload =
      (0x43 :: 0x50 :: 1 :: ft :: 0 :: 0 :: msgId / 256 % 256 :: msgId % 256 :: seq / 256 % 256 :: seq % 256 :: total / 256 % 256 :: total % 256 :: payload.length / 256 % 256 :: payload.length % 256 :: payload) ++ u32be (crc32 (0x43 :: 0x50 :: 1 :: ft :: 0 :: 0 :: msgId / 256 % 256 :: msgId % 256 :: seq / 256 % 256 :: seq % 256 :: total / 256 % 256 :: total % 256 :: payload.length / 256 % 256 :: payload.length % 256 :: payload)) := by
    rw [frameBytes]
    simp only [u16be, List.cons_append, List.nil_append, List.append_assoc]
  rw [hframe] at hil ⊢
  have hbytesB : ∀ x ∈ (0x43 :: 0x50 :: 1 :: ft :: 0 :: 0 :: msgId / 256 % 256 :: msgId % 256 :: seq / 256 % 256 :: seq % 256 :: total / 256 % 256 :: total % 256 :: payload.length / 256 % 256 :: payload.length % 256 :: payload), x < 256 := by
    intro x hx
    simp only [List.mem_cons] at hx
    rcases hx with rfl | rfl | rfl | rfl | rfl | rfl | rfl | rfl | rfl |
      rfl | rfl | rfl | rfl | rfl | hx
    all_goals first | omega | exact hb _ hx
  have hBL : ((0x43 :: 0x50 :: 1 :: ft :: 0 :: 0 :: msgId / 256 % 256 :: msgId % 256 :: seq / 256 % 256 :: seq % 256 :: total / 256 % 256 :: total % 256 :: payload.length / 256 % 256 :: payload.length % 256 :: payload) : List ℕ).length = 14 + payload.length := by
    simp
    omega
  rcases hu : unpack_frame (flipBit ((0x43 :: 0x50 :: 1 :: ft :: 0 :: 0 :: msgId / 256 % 256 :: msgId % 256 :: seq / 256 % 256 :: seq % 256 :: total / 256 % 256 :: total % 256 :: payload.length / 256 % 256 :: payload.length % 256 :: payload) ++
      u32be (crc32 (0x43 :: 0x50 :: 1 :: ft :: 0 :: 0 :: msgId / 256 % 256 :: msgId % 256 :: seq / 256 % 256 :: seq % 256 :: total / 256 % 256 :: total % 256 :: payload.length / 256 % 256 :: payload.length % 256 :: payload))) i k) with e | v
  · exact ⟨e, rfl⟩
  · exfalso
    by_cases hiB : i < ((0x43 :: 0x50 :: 1 :: ft :: 0 :: 0 :: msgId / 256 % 256 :: msgId % 256 :: seq / 256 % 256 :: seq % 256 :: total / 256 % 256 :: total % 256 :: payload.length / 256 % 256 :: payload.length % 256 :: payload) : List ℕ).length
    · exact flip_error_in_body (0x43 :: 0x50 :: 1 :: ft :: 0 :: 0 :: msgId / 256 % 256 :: msgId % 256 :: seq / 256 % 256 :: seq % 256 :: total / 256 % 256 :: total % 256 :: payload.length / 256 % 256 :: payload.length % 256 :: payload) payload.length i k hBL hp hbytesB
        rfl rfl rfl rfl rfl hiB hi12 hi13 hk v hu
    · have hi4 : i < ((0x43 :: 0x50 :: 1 :: ft :: 0 :: 0 :: msgId / 256 % 256 :: msgId % 256 :: seq / 256 % 256 :: seq % 256 :: total / 256 % 256 :: total % 256 :: payload.length / 256 % 256 :: payload.length % 256 :: payload) : List ℕ).length + 4 := by
        have hlen : ((0x43 :: 0x50 :: 1 :: ft :: 0 :: 0 :: msgId / 256 % 256 :: msgId % 256 :: seq / 256 % 256 :: seq % 256 :: total / 256 % 256 :: total % 256 :: payload.length / 256 % 256 :: payload.length % 256 :: payload) ++ u32be (crc32 (0x43 :: 0x50 :: 1 :: ft :: 0 :: 0 :: msgId / 256 % 256 :: msgId % 256 :: seq / 256 % 256 :: seq % 256 :: total / 256 % 256 :: total % 256 :: payload.length / 256 % 256 :: payload.length % 256 :: payload))).length =
            ((0x43 :: 0x50 :: 1 :: ft :: 0 :: 0 :: msgId / 256 % 256 :: msgId % 256 :: seq / 256 % 256 :: seq % 256 :: total / 256 % 256 :: total % 256 :: payload.length / 256 % 256 :: payload.length % 256 :: payload) : List ℕ).length + 4 := by
          simp [u32be]
        omega
      exact flip_error_in_crc (0x43 :: 0x50 :: 1 :: ft :: 0 :: 0 :: msgId / 256 % 256 :: msgId % 256 :: seq / 256 % 256 :: seq % 256 :: total / 256 % 256 :: total % 256 :: payload.length / 256 % 256 :: payload.length % 256 :: payload) payload.length i k hBL hp hbytesB
        rfl rfl (by omega) hi4 hk v hu

set_option maxRecDepth 100000 in
theorem C4_bitflip_detected_witness :
    ∃ e, unpack_frame (flipBit (frameBytes 0 1 0 1 []) 5 0) = .error e :=
  C4_bitflip_detected 0 1 0 1 [] (frameBytes 0 1 0 1 []) (by omega)
    (by omega) (by omega) (by omega) (by simp) (by simp) (by rfl) 5 0
    (by rw [frameBytes_length]; norm_num) (by omega) (by omega) (by omega)

set_option maxRecDepth 100000 in
/-- C4 fails as stated: flipping bit 2 of byte 13 (the low byte of the
length field) of a valid 23-byte frame yields an input that
`unpack_frame` accepts, returning a shorter payload — the flip is not
detected as a CRC error. -/
theorem C4_counterexample :
    pack_frame 0 0 0 0 lenFlipPayload =
      .ok (frameBytes 0 0 0 0 lenFlipPayload) ∧
    unpack_frame (frameBytes 0 0 0 0 lenFlipPayload) =
      .ok (0, 0, 0, 0, lenFlipPayload) ∧
    unpack_frame (flipBit (frameBytes 0 0 0 0 lenFlipPayload) 13 2) =
      .ok (0, 0, 0, 0, [0xAA]) ∧
    lenFlipPayload ≠ [0xAA] := by
  refine ⟨by rfl, by rfl, by rfl, by simp [lenFlipPayload, u32be]⟩

/-! ## Determinism (fast simulator) and the wall clock -/

set_option maxRecDepth 100000 in
/-- C9 fails as stated for the wall-clock `run_once`: two runs with
identical parameters (payload, probabilities, max_payload, timeout,
max_retries, PRNG streams, msg_id) but different wall clocks return
`RunResult`s whose `seconds` (and goodput) fields differ — the
elapsed-time field is `time.time() - t0`, a function of the wall
clock, not of the parameters. -/
theorem C9_counterexample :
    run_once ⟨fun n => (n : ℚ), fun _ => 0, fun _ => 0, id, fun _ => 0,
        some, id, .ok⟩ [42] 0 0 1 5 3 1 0 0 50 =
      .done ⟨true, 3, 1/3, 1, 0, 0, 1, 0, 1, 0, 0, 1/1000000000,
        1000000000⟩ ∧
    run_once ⟨fun n => 2 * (n : ℚ), fun _ => 0, fun _ => 0, id,
        fun _ => 0, some, id, .ok⟩ [42] 0 0 1 5 3 1 0 0 50 =
      .done ⟨true, 6, 1/6, 1, 0, 0, 1, 0, 1, 0, 0, 1/1000000000,
        1000000000⟩ ∧
    (3 : ℚ) ≠ 6 := by
  refine ⟨by with_unfolding_all rfl, by with_unfolding_all rfl,
    by norm_num⟩

/-- C9 amended: the fast simulator `run_once_sim` is deterministic —
its entire `RunResult` is a function of the parameters and the
seed-derived PRNG streams, so two calls with identical parameters and
identical streams return identical records (elapsed time and goodput
included).  The wall-clock `run_once` does not satisfy the analogous
property for its `seconds`/`goodput_Bps` fields; see the
counterexample. -/
theorem C9_sim_deterministic (rngQ1 rngQ2 : ℕ → ℚ)
    (rngN1 rngN2 : ℕ → ℕ) (payload : List ℕ) (mp t mr : ℤ)
    (dch ach : ChannelParams) (mid wf : ℕ)
    (h1 : ∀ n, rngQ1 n = rngQ2 n) (h2 : ∀ n, rngN1 n = rngN2 n) :
    run_once_sim rngQ1 rngN1 payload mp t mr dch ach mid wf =
      run_once_sim rngQ2 rngN2 payload mp t mr dch ach mid wf := by
  rw [funext h1, funext h2]

theorem C9_sim_deterministic_witness :
    run_once_sim (fun _ => 0) (fun _ => 0) [1] 1 5 3 ⟨0, 0, 0⟩
        ⟨0, 0, 0⟩ 1 5 =
      run_once_sim (fun _ => 0) (fun _ => 0) [1] 1 5 3 ⟨0, 0, 0⟩
        ⟨0, 0, 0⟩ 1 5 :=
  C9_sim_deterministic (fun _ => 0) (fun _ => 0) (fun _ => 0)
    (fun _ => 0) [1] 1 5 3 ⟨0, 0, 0⟩ ⟨0, 0, 0⟩ 1 5 (fun _ => rfl)
    (fun _ => rfl)

/-! ## Zero-loss behaviour of the fast simulator -/

lemma unpack_frameBytes (ft msgId seq total : ℕ) (payload : List ℕ)
    (hm : msgId ≤ 0xFFFF) (hs : seq ≤ 0xFFFF) (ht : total ≤ 0xFFFF)
    (hp : payload.length ≤ 0xFFFF) (hft : ft ≤ 0xFF)
    (hb : ∀ b ∈ payload, b < 256) :
    unpack_frame (frameBytes ft msgId seq total payload) =
      .ok (ft, msgId, seq, total, payload) := by
  have h := unpack_frameBytes_append ft msgId seq total payload []
    hm hs ht hp hft hb
  simpa using h

lemma pack_ack_ok (msgId seq total : ℕ) (hm : msgId ≤ 0xFFFF)
    (hs : seq ≤ 0xFFFF) (ht : total ≤ 0xFFFF) :
    pack_ack (msgId : ℤ) (seq : ℤ) (total : ℤ) =
      .ok (frameBytes 1 msgId seq total []) := by
  rw [pack_ack]
  exact pack_frame_ok 1 msgId seq total [] (by omega) hm hs ht (by simp)

lemma unpack_ackFrame (msgId seq total : ℕ) (hm : msgId ≤ 0xFFFF)
    (hs : seq ≤ 0xFFFF) (ht : total ≤ 0xFFFF) :
    unpack_frame (frameBytes 1 msgId seq total []) =
      .ok (1, msgId, seq, total, []) :=
  unpack_frameBytes 1 msgId seq total [] hm hs ht (by simp) (by omega)
    (by simp)

lemma eqPopReady_nil (now : ℤ) : eqPopReady [] now = ([], []) := rfl

lemma eqPopReady_single_le (t now : ℤ) (p : List ℕ) (h : t ≤ now) :
    eqPopReady [(t, p)] now = ([p], []) := by
  simp [eqPopReady, List.filter_cons, h]

lemma eqPopReady_single_gt (t now : ℤ) (p : List ℕ) (h : ¬ t ≤ now) :
    eqPopReady [(t, p)] now = ([], [(t, p)]) := by
  simp [eqPopReady, List.filter_cons, h]

lemma eqNextTime_nil : eqNextTime [] = none := rfl

lemma eqNextTime_single (t : ℤ) (p : List ℕ) :
    eqNextTime [(t, p)] = some t := rfl

lemma sendOverChannel_zero (rngQ : ℕ → ℚ) (rngN : ℕ → ℕ)
    (dl now : ℤ) (rq rn : ℕ) (q : List (ℤ × List ℕ)) (raw : List ℕ)
    (hq : 0 ≤ rngQ rq) :
    sendOverChannel rngQ rngN ⟨0, 0, dl⟩ now rq rn q raw =
      (q ++ [(now + dl, raw)], rq + 1, rn) := by
  simp only [sendOverChannel]
  rw [if_neg (not_lt.mpr hq), if_neg (lt_irrefl 0)]

lemma simPumpFrame_data (rngQ : ℕ → ℚ) (rngN : ℕ → ℕ) (da : ℤ)
    (msgId seq N : ℕ) (part raw : List ℕ) (T : ℤ)
    (qd : List (ℤ × List ℕ)) (qa : List (ℤ × List ℕ)) (R C : ℕ)
    (parts : List (ℕ × List ℕ)) (et : Option ℕ) (rq rn : ℕ)
    (hdec : unpack_frame raw = .ok (0, msgId, seq, N, part))
    (hm : msgId ≤ 0xFFFF) (hs : seq ≤ 0xFFFF) (hN : N ≤ 0xFFFF)
    (hq : 0 ≤ rngQ rq) :
    simPumpFrame rngQ rngN ⟨0, 0, da⟩ msgId
        ⟨T, qd, qa, R, C, parts, et, rq, rn⟩ raw =
      ⟨T, qd, qa ++ [(T + da, frameBytes 1 msgId seq N [])], R, C,
        dictInsert parts seq part, if et = none then some N else et,
        rq + 1, rn⟩ := by
  simp only [simPumpFrame, hdec]
  rw [if_neg (by simp [TYPE_DATA])]
  rw [pack_ack_ok msgId seq N hm hs hN]
  simp only [sendOverChannel_zero rngQ rngN da T (rq) rn qa
    (frameBytes 1 msgId seq N []) hq]

lemma receiverPump_nil (rngQ : ℕ → ℚ) (rngN : ℕ → ℕ)
    (ackCh : ChannelParams) (msgId : ℕ) (T : ℤ)
    (qa : List (ℤ × List ℕ)) (R C : ℕ) (parts : List (ℕ × List ℕ))
    (et : Option ℕ) (rq rn : ℕ) :
    receiverPump rngQ rngN ackCh msgId
        ⟨T, [], qa, R, C, parts, et, rq, rn⟩ =
      ⟨T, [], qa, R, C, parts, et, rq, rn⟩ := rfl

lemma receiverPump_pending (rngQ : ℕ → ℚ) (rngN : ℕ → ℕ)
    (ackCh : ChannelParams) (msgId : ℕ) (t T : ℤ) (raw : List ℕ)
    (qa : List (ℤ × List ℕ)) (R C : ℕ) (parts : List (ℕ × List ℕ))
    (et : Option ℕ) (rq rn : ℕ) (h : ¬ t ≤ T) :
    receiverPump rngQ rngN ackCh msgId
        ⟨T, [(t, raw)], qa, R, C, parts, et, rq, rn⟩ =
      ⟨T, [(t, raw)], qa, R, C, parts, et, rq, rn⟩ := by
  simp only [receiverPump, eqPopReady_single_gt t T raw h,
    List.foldl_nil]

lemma receiverPump_deliver (rngQ : ℕ → ℚ) (rngN : ℕ → ℕ) (da : ℤ)
    (msgId seq N : ℕ) (part raw : List ℕ) (t T : ℤ)
    (qa : List (ℤ × List ℕ)) (R C : ℕ) (parts : List (ℕ × List ℕ))
    (et : Option ℕ) (rq rn : ℕ) (h : t ≤ T)
    (hdec : unpack_frame raw = .ok (0, msgId, seq, N, part))
    (hm : msgId ≤ 0xFFFF) (hs : seq ≤ 0xFFFF) (hN : N ≤ 0xFFFF)
    (hq : 0 ≤ rngQ rq) :
    receiverPump rngQ rngN ⟨0, 0, da⟩ msgId
        ⟨T, [(t, raw)], qa, R, C, parts, et, rq, rn⟩ =
      ⟨T, [], qa ++ [(T + da, frameBytes 1 msgId seq N [])], R, C,
        dictInsert parts seq part, if et = none then some N else et,
        rq + 1, rn⟩ := by
  simp only [receiverPump, eqPopReady_single_le t T raw h,
    List.foldl_cons, List.foldl_nil]
  exact simPumpFrame_data rngQ rngN da msgId seq N part raw T [] qa
    R C parts et rq rn hdec hm hs hN hq

lemma scanAcks_nil (msgId seq total : ℕ) (st : SimState) :
    scanAcks msgId seq total st [] = (st, false) := rfl

lemma scanAcks_found (msgId seq total : ℕ) (st : SimState)
    (ackF pl : List ℕ)
    (hdec : unpack_frame ackF = .ok (1, msgId, seq, total, pl)) :
    scanAcks msgId seq total st [ackF] = (st, true) := by
  simp [scanAcks, hdec, TYPE_ACK]

lemma waitAck_zero (rngQ : ℕ → ℚ) (rngN : ℕ → ℕ) (dd da timeout : ℤ)
    (msgId seq N : ℕ) (raw part : List ℕ) (T : ℤ) (R C : ℕ)
    (parts : List (ℕ × List ℕ)) (et : Option ℕ) (rq rn w : ℕ)
    (hq : ∀ n, 0 ≤ rngQ n)
    (hdec : unpack_frame raw = .ok (0, msgId, seq, N, part))
    (hm : msgId ≤ 0xFFFF) (hs : seq ≤ 0xFFFF) (hN : N ≤ 0xFFFF)
    (hdd : 0 ≤ dd) (hda : 0 ≤ da) (hsum : dd + da ≤ timeout) :
    senderWaitAck rngQ rngN ⟨0, 0, da⟩ msgId seq N (T + timeout) (w + 3)
        ⟨T, [(T + dd, raw)], [], R, C, parts, et, rq, rn⟩ =
      (⟨T + dd + da, [], [], R, C, dictInsert parts seq part,
        if et = none then some N else et, rq + 1, rn⟩, true, false) := by
  have hackdec := unpack_ackFrame msgId seq N hm hs hN
  by_cases hdd0 : dd = 0
  · subst hdd0
    by_cases hda0 : da = 0
    · subst hda0
      rw [show w + 3 = (w + 2) + 1 from rfl, senderWaitAck]
      rw [if_neg (not_not_intro (show T ≤ T + timeout by omega))]
      simp only [receiverPump_deliver rngQ rngN 0 msgId seq N part raw
          (T + 0) T [] R C parts et rq rn (by omega) hdec hm hs hN
          (hq rq),
        List.nil_append,
        eqPopReady_single_le (T + 0) T (frameBytes 1 msgId seq N [])
          (by omega),
        scanAcks_found msgId seq N _ (frameBytes 1 msgId seq N []) []
          hackdec]
      norm_num
    · have hdapos : 0 < da := lt_of_le_of_ne hda (Ne.symm hda0)
      have step1 : senderWaitAck rngQ rngN ⟨0, 0, da⟩ msgId seq N
          (T + timeout) (w + 3)
          ⟨T, [(T + 0, raw)], [], R, C, parts, et, rq, rn⟩ =
          senderWaitAck rngQ rngN ⟨0, 0, da⟩ msgId seq N (T + timeout)
          (w + 2)
          ⟨T + da, [], [(T + da, frameBytes 1 msgId seq N [])], R, C,
            dictInsert parts seq part,
            if et = none then some N else et, rq + 1, rn⟩ := by
        rw [show w + 3 = (w + 2) + 1 from rfl, senderWaitAck]
        rw [if_neg (not_not_intro (show T ≤ T + timeout by omega))]
        simp only [receiverPump_deliver rngQ rngN da msgId seq N part
            raw (T + 0) T [] R C parts et rq rn (by omega) hdec hm hs
            hN (hq rq),
          List.nil_append,
          eqPopReady_single_gt (T + da) T (frameBytes 1 msgId seq N [])
            (by omega),
          scanAcks_nil, eqNextTime_nil, eqNextTime_single,
          (show ¬ (T + da ≤ T) by omega), if_false,
          (show min (T + da) (T + timeout + 1) = T + da by omega)]
      have step2 : senderWaitAck rngQ rngN ⟨0, 0, da⟩ msgId seq N
          (T + timeout) (w + 2)
          ⟨T + da, [], [(T + da, frameBytes 1 msgId seq N [])], R, C,
            dictInsert parts seq part,
            if et = none then some N else et, rq + 1, rn⟩ =
          (⟨T + da, [], [], R, C, dictInsert parts seq part,
            if et = none then some N else et, rq + 1, rn⟩, true,
            false) := by
        rw [show w + 2 = (w + 1) + 1 from rfl, senderWaitAck]
        rw [if_neg (not_not_intro (show T + da ≤ T + timeout by
          omega))]
        simp only [receiverPump_nil,
          eqPopReady_single_le (T + da) (T + da)
            (frameBytes 1 msgId seq N []) (le_refl _),
          scanAcks_found msgId seq N _ (frameBytes 1 msgId seq N []) []
            hackdec]
      rw [step1, step2]
      norm_num
  · have hddpos : 0 < dd := lt_of_le_of_ne hdd (Ne.symm hdd0)
    have step1 : senderWaitAck rngQ rngN ⟨0, 0, da⟩ msgId seq N
        (T + timeout) (w + 3)
        ⟨T, [(T + dd, raw)], [], R, C, parts, et, rq, rn⟩ =
        senderWaitAck rngQ rngN ⟨0, 0, da⟩ msgId seq N (T + timeout)
        (w + 2) ⟨T + dd, [(T + dd, raw)], [], R, C, parts, et, rq,
          rn⟩ := by
      rw [show w + 3 = (w + 2) + 1 from rfl, senderWaitAck]
      rw [if_neg (not_not_intro (show T ≤ T + timeout by omega))]
      simp only [receiverPump_pending rngQ rngN ⟨0, 0, da⟩ msgId
          (T + dd) T raw [] R C parts et rq rn (by omega),
        eqPopReady_nil, scanAcks_nil, eqNextTime_single, eqNextTime_nil,
        (show ¬ (T + dd ≤ T) by omega), if_false,
        (show min (T + dd) (T + timeout + 1) = T + dd by omega)]
    by_cases hda0 : da = 0
    · subst hda0
      have step2 : senderWaitAck rngQ rngN ⟨0, 0, 0⟩ msgId seq N
          (T + timeout) (w + 2)
          ⟨T + dd, [(T + dd, raw)], [], R, C, parts, et, rq, rn⟩ =
          (⟨T + dd, [], [], R, C, dictInsert parts seq part,
            if et = none then some N else et, rq + 1, rn⟩, true,
            false) := by
        rw [show w + 2 = (w + 1) + 1 from rfl, senderWaitAck]
        rw [if_neg (not_not_intro (show T + dd ≤ T + timeout by
          omega))]
        simp only [receiverPump_deliver rngQ rngN 0 msgId seq N part
            raw (T + dd) (T + dd) [] R C parts et rq rn (le_refl _)
            hdec hm hs hN (hq rq),
          List.nil_append,
          eqPopReady_single_le (T + dd + 0) (T + dd)
            (frameBytes 1 msgId seq N []) (by omega),
          scanAcks_found msgId seq N _ (frameBytes 1 msgId seq N []) []
            hackdec]
      rw [step1, step2]
      norm_num
    · have hdapos : 0 < da := lt_of_le_of_ne hda (Ne.symm hda0)
      have step2 : senderWaitAck rngQ rngN ⟨0, 0, da⟩ msgId seq N
          (T + timeout) (w + 2)
          ⟨T + dd, [(T + dd, raw)], [], R, C, parts, et, rq, rn⟩ =
          senderWaitAck rngQ rngN ⟨0, 0, da⟩ msgId seq N (T + timeout)
          (w + 1)
          ⟨T + dd + da, [],
            [(T + dd + da, frameBytes 1 msgId seq N [])], R, C,
            dictInsert parts seq part,
            if et = none then some N else et, rq + 1, rn⟩ := by
        rw [show w + 2 = (w + 1) + 1 from rfl, senderWaitAck]
        rw [if_neg (not_not_intro (show T + dd ≤ T + timeout by
          omega))]
        simp only [receiverPump_deliver rngQ rngN da msgId seq N part
            raw (T + dd) (T + dd) [] R C parts et rq rn (le_refl _)
            hdec hm hs hN (hq rq),
          List.nil_append,
          eqPopReady_single_gt (T + dd + da) (T + dd)
            (frameBytes 1 msgId seq N []) (by omega),
          scanAcks_nil, eqNextTime_nil, eqNextTime_single,
          (show ¬ (T + dd + da ≤ T + dd) by omega), if_false,
          (show min (T + dd + da) (T + timeout + 1) = T + dd + da by
            omega)]
      have step3 : senderWaitAck rngQ rngN ⟨0, 0, da⟩ msgId seq N
          (T + timeout) (w + 1)
          ⟨T + dd + da, [],
            [(T + dd + da, frameBytes 1 msgId seq N [])], R, C,
            dictInsert parts seq part,
            if et = none then some N else et, rq + 1, rn⟩ =
          (⟨T + dd + da, [], [], R, C, dictInsert parts seq part,
            if et = none then some N else et, rq + 1, rn⟩, true,
            false) := by
        rw [show w + 1 = w + 1 from rfl, senderWaitAck]
        rw [if_neg (not_not_intro (show T + dd + da ≤ T + timeout by
          omega))]
        simp only [receiverPump_nil,
          eqPopReady_single_le (T + dd + da) (T + dd + da)
            (frameBytes 1 msgId seq N []) (le_refl _),
          scanAcks_found msgId seq N _ (frameBytes 1 msgId seq N []) []
            hackdec]
      rw [step1, step2, step3]

lemma retryLoop_zero (rngQ : ℕ → ℚ) (rngN : ℕ → ℕ)
    (dd da timeout maxRetries : ℤ) (msgId seq N : ℕ)
    (raw part : List ℕ) (T : ℤ) (R C : ℕ)
    (parts : List (ℕ × List ℕ)) (et : Option ℕ) (rq rn w f : ℕ)
    (tries : ℤ) (hq : ∀ n, 0 ≤ rngQ n)
    (hdec : unpack_frame raw = .ok (0, msgId, seq, N, part))
    (hm : msgId ≤ 0xFFFF) (hs : seq ≤ 0xFFFF) (hN : N ≤ 0xFFFF)
    (hdd : 0 ≤ dd) (hda : 0 ≤ da) (hsum : dd + da ≤ timeout) :
    senderRetryLoop rngQ rngN ⟨0, 0, dd⟩ ⟨0, 0, da⟩ msgId timeout
        maxRetries (w + 3) raw seq N (f + 1) tries
        ⟨T, [], [], R, C, parts, et, rq, rn⟩ =
      .done (⟨T + dd + da, [], [], R, C, dictInsert parts seq part,
        if et = none then some N else et, rq + 1 + 1, rn⟩, true) := by
  rw [senderRetryLoop]
  simp only [sendOverChannel_zero rngQ rngN dd T rq rn [] raw (hq rq),
    List.nil_append]
  rw [waitAck_zero rngQ rngN dd da timeout msgId seq N raw part T R C
    parts et (rq + 1) rn w hq hdec hm hs hN hdd hda hsum]

lemma framesLoop_zero (rngQ : ℕ → ℚ) (rngN : ℕ → ℕ)
    (dd da timeout maxRetries : ℤ) (msgId N k : ℕ) (payload : List ℕ)
    (w : ℕ) (hq : ∀ n, 0 ≤ rngQ n) (hb : ∀ b ∈ payload, b < 256)
    (hm : msgId ≤ 0xFFFF) (hN : N ≤ 0xFFFF)
    (hmin : min k payload.length ≤ 0xFFFF)
    (hdd : 0 ≤ dd) (hda : 0 ≤ da) (hsum : dd + da ≤ timeout) :
    ∀ (m i : ℕ), i + m = N → ∀ et : Option ℕ,
      et = none ∨ et = some N → ∀ (R C rq rn : ℕ) (T : ℤ),
      ∃ rq' : ℕ, simFramesLoop rngQ rngN ⟨0, 0, dd⟩ ⟨0, 0, da⟩ msgId
          timeout maxRetries (w + 3)
          ((List.range' i m).map (fun j =>
            frameBytes 0 msgId j N ((payload.drop (j * k)).take k)))
          ⟨T, [], [], R, C, (List.range i).map (fun j =>
            (j, (payload.drop (j * k)).take k)), et, rq, rn⟩ =
        .done (.inl ⟨T + (m : ℤ) * (dd + da), [], [], R, C,
          (List.range (i + m)).map (fun j =>
            (j, (payload.drop (j * k)).take k)),
          if m = 0 then et else some N, rq', rn⟩) := by
  intro m
  induction m with
  | zero =>
    intro i hi et het R C rq rn T
    refine ⟨rq, ?_⟩
    simp [simFramesLoop, List.range'_zero]
  | succ m ih =>
    intro i hi et het R C rq rn T
    have hiN : i < N := by omega
    have hlen : ((payload.drop (i * k)).take k).length ≤ 0xFFFF := by
      simp only [List.length_take, List.length_drop]
      omega
    have hbi : ∀ b ∈ (payload.drop (i * k)).take k, b < 256 :=
      fun b hb' =>
        hb b (List.mem_of_mem_drop (List.mem_of_mem_take hb'))
    have hdec_i := unpack_frameBytes 0 msgId i N
      ((payload.drop (i * k)).take k) hm (by omega) hN hlen (by omega)
      hbi
    rw [List.range'_succ i m 1, List.map_cons]
    simp only [simFramesLoop, hdec_i]
    rw [if_neg (by simp [TYPE_DATA])]
    rw [retryLoop_zero rngQ rngN dd da timeout maxRetries msgId i N
      (frameBytes 0 msgId i N ((payload.drop (i * k)).take k))
      ((payload.drop (i * k)).take k) T R C
      ((List.range i).map (fun j =>
        (j, (payload.drop (j * k)).take k))) et rq rn w
      maxRetries.toNat 0 hq hdec_i hm (by omega) hN hdd hda hsum]
    have hfresh : ∀ p ∈ (List.range i).map (fun j =>
        (j, (payload.drop (j * k)).take k)), p.1 ≠ i := by
      intro p hp
      simp only [List.mem_map, List.mem_range] at hp
      obtain ⟨j, hj, rfl⟩ := hp
      simpa using (by omega : j ≠ i)
    rw [dictInsert_of_fresh _ _ _ hfresh]
    rw [show (List.range i).map (fun j =>
          (j, (payload.drop (j * k)).take k)) ++
          [(i, (payload.drop (i * k)).take k)] =
        (List.range (i + 1)).map (fun j =>
          (j, (payload.drop (j * k)).take k)) from by
      rw [List.range_succ, List.map_append]
      rfl]
    have hetN : (if et = none then some N else et) = some N := by
      rcases het with rfl | rfl <;> rfl
    rw [hetN]
    obtain ⟨rq', hIH⟩ := ih (i + 1) (by omega) (some N) (Or.inr rfl)
      R C (rq + 1 + 1) rn (T + dd + da)
    rw [show T + dd + da + (m : ℤ) * (dd + da) =
        T + ((m + 1 : ℕ) : ℤ) * (dd + da) from by push_cast; ring]
      at hIH
    rw [show i + 1 + m = i + (m + 1) from by omega] at hIH
    rw [ite_self (c := m = 0) (some N)] at hIH
    rw [if_neg (Nat.succ_ne_zero m)]
    exact ⟨rq', hIH⟩

/-- C8 amended: under zero drop and corruption probabilities the
simulated Stop-and-Wait run delivers the whole payload with no retry
and no CRC failure, **provided** the one-way delays are nonnegative
and their sum fits within the timeout (and the 16-bit field limits of
`pack_frame` hold, and the `random()` stream is nonnegative as real
`random.random()` draws are).  Without the delay bound the claim
fails: a data delay larger than the timeout forces a retransmission
even under zero loss (see the counterexample). -/
theorem C8_zero_loss (rngQ : ℕ → ℚ) (rngN : ℕ → ℕ) (payload : List ℕ)
    (k msgId : ℕ) (dd da timeout maxRetries : ℤ) (w : ℕ)
    (hq : ∀ n, 0 ≤ rngQ n) (hb : ∀ b ∈ payload, b < 256)
    (hk : 1 ≤ k) (hm : msgId ≤ 0xFFFF)
    (htot : fragTotal payload.length k ≤ 0xFFFF)
    (hmin : min k payload.length ≤ 0xFFFF)
    (hdd : 0 ≤ dd) (hda : 0 ≤ da) (hsum : dd + da ≤ timeout) :
    ∃ r : SimRunResult,
      run_once_sim rngQ rngN payload (k : ℤ) timeout maxRetries
          ⟨0, 0, dd⟩ ⟨0, 0, da⟩ msgId (w + 3) = .done r ∧
        r.ok = true ∧ r.retries_total = 0 ∧ r.crc_fail_total = 0 := by
  have hN1 : 1 ≤ fragTotal payload.length k := fragTotal_pos _ _
  have hcov : payload.length ≤ fragTotal payload.length k * k :=
    le_fragTotal_mul _ _ hk
  obtain ⟨rq', hloop⟩ := framesLoop_zero rngQ rngN dd da timeout
    maxRetries msgId (fragTotal payload.length k) k payload w hq hb hm
    htot hmin hdd hda hsum (fragTotal payload.length k) 0 (by omega)
    none (Or.inl rfl) 0 0 0 0 0
  rw [← List.range_eq_range'] at hloop
  rw [show (List.range 0).map (fun j : ℕ =>
      (j, (payload.drop (j * k)).take k)) = [] from rfl] at hloop
  rw [show (0 : ℕ) + fragTotal payload.length k =
      fragTotal payload.length k from by omega] at hloop
  rw [if_neg (by omega : ¬ fragTotal payload.length k = 0)] at hloop
  rw [show (0 : ℤ) + (fragTotal payload.length k : ℤ) * (dd + da) =
      (fragTotal payload.length k : ℤ) * (dd + da) from by ring]
    at hloop
  refine ⟨?_, ?_, ?_, ?_, ?_⟩
  rotate_left 1
  · rw [run_once_sim]
    simp only [fragment_message_ok payload msgId k hk hm htot hmin,
      hloop, receiverPump_nil,
      reassemble_chunks payload k (fragTotal payload.length k) hk hN1
        hcov]
    exact rfl
  · simp
  · rfl
  · rfl

theorem C8_zero_loss_witness :
    ∃ r : SimRunResult,
      run_once_sim (fun _ => 0) (fun _ => 0) [1, 2, 3] 2 5 3
          ⟨0, 0, 0⟩ ⟨0, 0, 0⟩ 1 3 = .done r ∧
        r.ok = true ∧ r.retries_total = 0 ∧ r.crc_fail_total = 0 :=
  C8_zero_loss (fun _ => 0) (fun _ => 0) [1, 2, 3] 2 1 0 0 5 3 0
    (fun _ => le_refl 0) (by decide) (by decide) (by decide)
    (by decide) (by decide) (by decide) (by decide) (by decide)

set_option maxRecDepth 100000 in
/-- C8 fails as stated: with both channels lossless (zero drop and
corruption probabilities) but a data delay of 10 ms against a 5 ms
timeout, the simulated run times out once and retransmits, returning
`ok = true` with `retries_total = 1`, not 0. -/
theorem C8_counterexample :
    run_once_sim (fun _ => 0) (fun _ => 0) [120] 1 5 10 ⟨0, 0, 10⟩
        ⟨0, 0, 0⟩ 1 50 = .done ⟨true, 10, 100, 1, 0⟩ ∧
      SimRunResult.retries_total ⟨true, 10, 100, 1, 0⟩ ≠ 0 :=
  ⟨by with_unfolding_all rfl, by decide⟩
